import Mathlib

set_option maxRecDepth 8000

/-!
Verification development for the x402 payment protocol backend
(`backend/protocol.py`, `backend/verification.py`, `backend/client.py`,
`backend/facilitator_server.py`, `backend/resource_server.py`).

The Python sources are shallowly embedded: pure functions become Lean
functions, machine integers become `Nat`/`Int` with explicit `% 2^w` where
overflow matters, and every fallible operation returns `Option`/an error
value.  Third-party library behaviour that the sources call into
(`keccak256`, EIP-712 typed-data encoding, base64, JSON) is implemented
for real; only the secp256k1 sign/recover pair is replaced by the usual
idealized signature model (recovery returns the signer exactly on the
digest that was signed and on a canonical `v`), documented at its
definition site.
-/

namespace X402

/-! ## Byte and word utilities -/

/-- All 64-bit words are `Nat`s kept below `2 ^ 64`. -/
def w64 : Nat := 2 ^ 64

/-- Left-rotation of a 64-bit word (input assumed `< 2 ^ 64`). -/
def rotl64 (x n : Nat) : Nat :=
  (((x <<< n) % w64) ||| (x >>> (64 - n)))

/-- Big-endian bytes (length `k`) of a natural number. -/
def beBytes (k n : Nat) : List Nat :=
  (List.range k).map (fun i => (n >>> (8 * (k - 1 - i))) % 256)

/-- Interpret a byte list as a big-endian natural number. -/
def bytesToNat (bs : List Nat) : Nat :=
  bs.foldl (fun acc b => acc * 256 + b) 0

/-- ASCII bytes of a string (the sources only hash ASCII data;
this is the UTF-8 encoding restricted to ASCII). -/
def strBytes (s : String) : List Nat :=
  s.data.map Char.toNat

/-! ## Keccak-256 (Ethereum's original 0x01 padding) -/

/-- Keccak rho rotation offsets, lane order `x + 5 * y`. -/
def keccakRho : List Nat :=
  [0, 1, 0x3e, 28, 27, 36, 44, 6, 0x37, 20, 3, 10, 0x2b, 25, 39,
   41, 45, 0xf, 21, 8, 18, 2, 0x3d, 56, 14]

/-- Keccak pi lane permutation: position `x + 5 * y` moves to
`y + 5 * ((2 * x + 3 * y) % 5)`. -/
def keccakPi : List Nat :=
  ((List.range 5).map (fun y => (List.range 5).map (fun x =>
    y + 5 * ((2 * x + 3 * y) % 5)))).flatten

/-- Keccak-f[1600] round constants. -/
def keccakRC : List Nat :=
  [0x0000000000000001, 0x0000000000008082, 0x800000000000808a, 0x8000000080008000,
   0x000000000000808b, 0x0000000080000001, 0x8000000080008081, 0x8000000000008009,
   0x000000000000008a, 0x0000000000000088, 0x0000000080008009, 0x000000008000000a,
   0x000000008000808b, 0x800000000000008b, 0x8000000000008089, 0x8000000000008003,
   0x8000000000008002, 0x8000000000000080, 0x000000000000800a, 0x800000008000000a,
   0x8000000080008081, 0x8000000000008080, 0x0000000080000001, 0x8000000080008008]

/-- One Keccak-f[1600] round (theta, rho, pi, chi, iota) on a 25-lane state. -/
def keccakRound (s : List Nat) (rc : Nat) : List Nat :=
  let c := (List.range 5).map (fun x =>
    (s.getD x 0) ^^^ (s.getD (x + 5) 0) ^^^ (s.getD (x + 10) 0) ^^^
    (s.getD (x + 15) 0) ^^^ (s.getD (x + 20) 0))
  let d := (List.range 5).map (fun x =>
    (c.getD ((x + 4) % 5) 0) ^^^ rotl64 (c.getD ((x + 1) % 5) 0) 1)
  let s1 := (List.range 25).map (fun i => (s.getD i 0) ^^^ (d.getD (i % 5) 0))
  let b := (List.range 25).foldl
    (fun acc i => acc.set (keccakPi.getD i 0) (rotl64 (s1.getD i 0) (keccakRho.getD i 0)))
    (List.replicate 25 0)
  let s2 := (List.range 25).map (fun i =>
    let x := i % 5
    let y := i / 5
    (b.getD i 0) ^^^
      (((b.getD ((x + 1) % 5 + 5 * y) 0) ^^^ (w64 - 1)) &&& (b.getD ((x + 2) % 5 + 5 * y) 0)))
  s2.set 0 ((s2.getD 0 0) ^^^ rc)

/-- The full 24-round Keccak-f[1600] permutation. -/
def keccakF (s : List Nat) : List Nat :=
  keccakRC.foldl keccakRound s

/-- Absorb one 136-byte rate block into the state (little-endian lanes)
and permute. -/
def keccakAbsorb (s : List Nat) (block : List Nat) : List Nat :=
  keccakF ((List.range 25).map (fun i =>
    (s.getD i 0) ^^^
      ((List.range 8).foldl (fun acc j => acc ^^^ ((block.getD (8 * i + j) 0) <<< (8 * j))) 0)))

/-- Keccak-256 of a byte list: pad with the original 0x01 domain byte,
absorb all rate blocks, squeeze 32 bytes. -/
def keccak256 (msg : List Nat) : List Nat :=
  let rate := 136
  let padTotal := rate - msg.length % rate
  let padded := msg ++
    (if padTotal = 1 then [0x81]
     else 0x01 :: (List.replicate (padTotal - 2) 0 ++ [0x80]))
  let nblocks := padded.length / rate
  let final := (List.range nblocks).foldl
    (fun st b => keccakAbsorb st ((padded.drop (b * rate)).take rate))
    (List.replicate 25 0)
  (List.range 32).map (fun i => ((final.getD (i / 8) 0) >>> (8 * (i % 8))) % 256)

/-! ## Hex and decimal strings -/

/-- Value of a hexadecimal digit character, case-insensitive
(as accepted by Python `int(s, 16)` and by address parsing);
the ranges are `0-9`, `a-f`, `A-F` by character code. -/
def hexDigitVal (c : Char) : Option Nat :=
  if 48 ≤ c.toNat ∧ c.toNat ≤ 57 then some (c.toNat - 48)
  else if 97 ≤ c.toNat ∧ c.toNat ≤ 102 then some (c.toNat - 87)
  else if 65 ≤ c.toNat ∧ c.toNat ≤ 70 then some (c.toNat - 55)
  else none

/-- One step of the big-endian hex fold. -/
def hexStep (acc : Option Nat) (c : Char) : Option Nat :=
  acc.bind (fun a => (hexDigitVal c).map (fun d => 16 * a + d))

/-- Fold a list of hex digit characters into a natural number;
`none` if any character is not a hex digit. -/
def hexDigitsToNat (cs : List Char) : Option Nat :=
  cs.foldl hexStep (some 0)

/-- Strip an optional `0x` / `0X` prefix. -/
def stripHexMark (cs : List Char) : List Char :=
  match cs with
  | '0' :: 'x' :: rest => rest
  | '0' :: 'X' :: rest => rest
  | _ => cs

/-- Python `int(s, 16)`: optional sign, optional `0x` mark, then at least
one hex digit.  (Model restriction: surrounding whitespace and `_`
separators, which Python also accepts, are not modelled.) -/
def pyIntHex (s : String) : Option Int :=
  match s.data with
  | [] => none
  | c :: rest =>
      if c = '-' then
        (let ds := stripHexMark rest
         if ds.isEmpty then none else (hexDigitsToNat ds).map (fun n => -(n : Int)))
      else
        (let ds := stripHexMark (c :: rest)
         if ds.isEmpty then none else (hexDigitsToNat ds).map (fun n => (n : Int)))

/-- Value of a decimal digit character (`0-9` by character code). -/
def decDigitVal (c : Char) : Option Nat :=
  if 48 ≤ c.toNat ∧ c.toNat ≤ 57 then some (c.toNat - 48) else none

/-- One step of the big-endian decimal fold. -/
def decStep (acc : Option Nat) (c : Char) : Option Nat :=
  acc.bind (fun a => (decDigitVal c).map (fun d => 10 * a + d))

/-- Fold decimal digit characters into a natural number. -/
def decDigitsToNat (cs : List Char) : Option Nat :=
  cs.foldl decStep (some 0)

/-- Python `int(s)`: optional minus sign then at least one decimal digit.
(Model restriction: surrounding whitespace, a leading `+` and `_`
separators, which Python also accepts, are not modelled.) -/
def pyIntDec (s : String) : Option Int :=
  match s.data with
  | [] => none
  | c :: rest =>
      if c = '-' then
        (if rest.isEmpty then none
         else (decDigitsToNat rest).map (fun n => -(n : Int)))
      else (decDigitsToNat (c :: rest)).map (fun n => (n : Int))

/-- Decimal digit character for `d < 10`. -/
def decDigitChar (d : Nat) : Char := Char.ofNat ('0'.toNat + d)

/-- Little-endian decimal digits with explicit fuel (structurally
recursive so that proofs can evaluate it). -/
def natDecDigitsAux : Nat → Nat → List Nat
  | 0, _ => []
  | _ + 1, 0 => []
  | f + 1, n => (n % 10) :: natDecDigitsAux f (n / 10)

/-- Little-endian decimal digits of `n`. -/
def natDecDigits (n : Nat) : List Nat := natDecDigitsAux n n

/-- Decimal rendering of a natural number (model of Python `str(n)` for
`n ≥ 0`): big-endian digits, `"0"` for zero. -/
def natDecStr (n : Nat) : String :=
  if n = 0 then "0" else ⟨((natDecDigits n).map decDigitChar).reverse⟩

/-- Decimal rendering of an integer (model of Python `str(n)`). -/
def intDecStr (n : Int) : String :=
  if n < 0 then "-" ++ natDecStr n.natAbs else natDecStr n.natAbs

/-- Lower-case hex digit character for `d < 16`. -/
def hexDigitChar (d : Nat) : Char :=
  if d < 10 then Char.ofNat ('0'.toNat + d) else Char.ofNat ('a'.toNat + (d - 10))

/-- Fixed-width (2 * k hex digits) lower-case big-endian hex rendering of
a `k`-byte value, the model of Python `n.to_bytes(k, "big").hex()`. -/
def natHexFixed (k n : Nat) : String :=
  ⟨((beBytes k n).map (fun b => [hexDigitChar (b / 16), hexDigitChar (b % 16)])).flatten⟩

/-! ## Base64 (Python `base64.b64decode` / `b64encode`) -/

/-- Value of a base64 alphabet character. -/
def b64Val (c : Char) : Option Nat :=
  if ('A' ≤ c ∧ c ≤ 'Z') then some (c.toNat - 'A'.toNat)
  else if ('a' ≤ c ∧ c ≤ 'z') then some (c.toNat - 'a'.toNat + 26)
  else if ('0' ≤ c ∧ c ≤ '9') then some (c.toNat - '0'.toNat + 52)
  else if c = '+' then some 62
  else if c = '/' then some 63
  else none

/-- Is the character in the base64 alphabet or padding? -/
def b64Relevant (c : Char) : Bool :=
  (b64Val c).isSome || c = '='

/-- Decode a run of full 4-character groups.  `none` models
`binascii.Error`. -/
def b64Groups : List Char → Option (List Nat)
  | [] => some []
  | c1 :: c2 :: c3 :: c4 :: rest => do
      let a ← b64Val c1
      let b ← b64Val c2
      if c3 = '=' then
        if c4 = '=' ∧ rest = [] then pure [a <<< 2 ||| b >>> 4] else none
      else do
        let c ← b64Val c3
        if c4 = '=' then
          if rest = [] then pure [a <<< 2 ||| b >>> 4, (b % 16) <<< 4 ||| c >>> 2]
          else none
        else do
          let d ← b64Val c4
          let tail ← b64Groups rest
          pure ([a <<< 2 ||| b >>> 4, (b % 16) <<< 4 ||| c >>> 2, (c % 4) <<< 6 ||| d] ++ tail)
  | _ => none

/-- Python `base64.b64decode(s)` with the default `validate=False`:
characters outside the alphabet are discarded, then the remainder must be
well-padded groups of four. -/
def b64decode (s : String) : Option (List Nat) :=
  b64Groups (s.data.filter b64Relevant)

/-- Base64 character for a 6-bit value. -/
def b64Char (v : Nat) : Char :=
  if v < 26 then Char.ofNat ('A'.toNat + v)
  else if v < 52 then Char.ofNat ('a'.toNat + (v - 26))
  else if v < 62 then Char.ofNat ('0'.toNat + (v - 52))
  else if v = 62 then '+' else '/'

/-- Encode a byte list in base64 (Python `base64.b64encode`). -/
def b64encodeAux : List Nat → List Char
  | [] => []
  | [b1] =>
      [b64Char (b1 >>> 2), b64Char ((b1 % 4) <<< 4), '=', '=']
  | [b1, b2] =>
      [b64Char (b1 >>> 2), b64Char ((b1 % 4) <<< 4 ||| b2 >>> 4),
       b64Char ((b2 % 16) <<< 2), '=']
  | b1 :: b2 :: b3 :: rest =>
      [b64Char (b1 >>> 2), b64Char ((b1 % 4) <<< 4 ||| b2 >>> 4),
       b64Char ((b2 % 16) <<< 2 ||| b3 >>> 6), b64Char (b3 % 64)] ++ b64encodeAux rest

/-- Python `base64.b64encode` on bytes, as a string. -/
def b64encode (bs : List Nat) : String := ⟨b64encodeAux bs⟩

/-! ## JSON

Model of the JSON values exchanged by the protocol.  The parser covers
the protocol subset: objects, arrays, strings (with the standard escapes
and 4-digit `\u` escapes), integers, booleans and `null`.  JSON float
literals, accepted by Python, are not modelled; no protocol message
contains them. -/

/-- JSON values.  Numbers are integers (see the module comment). -/
inductive JVal where
  | null : JVal
  | bool (b : Bool) : JVal
  | num (n : Int) : JVal
  | str (s : String) : JVal
  | arr (elems : List JVal) : JVal
  | obj (fields : List (String × JVal)) : JVal

/-- Python `dict` lookup on parsed JSON: duplicate keys keep the last
occurrence, so search the reversed field list. -/
def jLookup (fields : List (String × JVal)) (k : String) : Option JVal :=
  (fields.reverse.find? (fun p => p.1 = k)).map (fun p => p.2)

/-- Python truthiness of a JSON-decoded value (`if not x`). -/
def jTruthy : JVal → Bool
  | .null => false
  | .bool b => b
  | .num n => decide (n ≠ 0)
  | .str s => decide (s ≠ "")
  | .arr l => !l.isEmpty
  | .obj l => !l.isEmpty

/-- JSON whitespace. -/
def jWs (c : Char) : Bool :=
  c = ' ' || c = '\t' || c = '\n' || c = '\r'

/-- Drop leading JSON whitespace. -/
def skipWs (cs : List Char) : List Char :=
  cs.dropWhile jWs

/-- Parse the remainder of a JSON string literal (opening quote already
consumed), accumulating characters in reverse. -/
def pStringAux : List Char → List Char → Option (String × List Char)
  | acc, '"' :: rest => some (⟨acc.reverse⟩, rest)
  | acc, '\\' :: e :: rest =>
      (match e, rest with
       | '"', r => pStringAux ('"' :: acc) r
       | '\\', r => pStringAux ('\\' :: acc) r
       | '/', r => pStringAux ('/' :: acc) r
       | 'b', r => pStringAux (Char.ofNat 8 :: acc) r
       | 'f', r => pStringAux (Char.ofNat 12 :: acc) r
       | 'n', r => pStringAux ('\n' :: acc) r
       | 'r', r => pStringAux ('\r' :: acc) r
       | 't', r => pStringAux ('\t' :: acc) r
       | 'u', h1 :: h2 :: h3 :: h4 :: r =>
           (hexDigitsToNat [h1, h2, h3, h4]).bind
             (fun v => pStringAux (Char.ofNat v :: acc) r)
       | _, _ => none)
  | acc, c :: rest => pStringAux (c :: acc) rest
  | _, [] => none

/-- Is `c` a decimal digit? -/
def isDigitChar (c : Char) : Bool := '0' ≤ c ∧ c ≤ '9'

/-- Parse a JSON integer literal. -/
def pNumber (cs : List Char) : Option (Int × List Char) :=
  match cs with
  | '-' :: rest =>
      (match rest.span isDigitChar with
       | ([], _) => none
       | (ds, rest2) => (decDigitsToNat ds).map (fun n => (-(n : Int), rest2)))
  | _ =>
      (match cs.span isDigitChar with
       | ([], _) => none
       | (ds, rest2) => (decDigitsToNat ds).map (fun n => ((n : Int), rest2)))

/-- The fueled JSON parser.  `mode = 0` parses one value; `mode = 1`
parses the non-empty field list of an object (returning `JVal.obj`);
`mode = 2` parses the non-empty element list of an array (returning
`JVal.arr`).  The fuel only bounds nesting and sequencing and is set
large enough at the top entry. -/
def pJson : Nat → Nat → List Char → Option (JVal × List Char)
  | 0, _, _ => none
  | fuel + 1, 0, cs =>
      (match skipWs cs with
       | '{' :: rest =>
           (match skipWs rest with
            | '}' :: rest2 => some (.obj [], rest2)
            | _ => pJson fuel 1 rest)
       | '[' :: rest =>
           (match skipWs rest with
            | ']' :: rest2 => some (.arr [], rest2)
            | _ => pJson fuel 2 rest)
       | '"' :: rest => (pStringAux [] rest).map (fun p => (.str p.1, p.2))
       | 't' :: 'r' :: 'u' :: 'e' :: rest => some (.bool true, rest)
       | 'f' :: 'a' :: 'l' :: 's' :: 'e' :: rest => some (.bool false, rest)
       | 'n' :: 'u' :: 'l' :: 'l' :: rest => some (.null, rest)
       | rest => (pNumber rest).map (fun p => (.num p.1, p.2)))
  | fuel + 1, 1, cs =>
      (match skipWs cs with
       | '"' :: rest =>
           (pStringAux [] rest).bind (fun kp =>
             match skipWs kp.2 with
             | ':' :: rest2 =>
                 (pJson fuel 0 rest2).bind (fun vp =>
                   match skipWs vp.2 with
                   | ',' :: rest3 =>
                       (pJson fuel 1 rest3).bind (fun op =>
                         match op.1 with
                         | .obj fields => some (.obj ((kp.1, vp.1) :: fields), op.2)
                         | _ => none)
                   | '}' :: rest3 => some (.obj [(kp.1, vp.1)], rest3)
                   | _ => none)
             | _ => none)
       | _ => none)
  | fuel + 1, _, cs =>
      (pJson fuel 0 cs).bind (fun vp =>
        match skipWs vp.2 with
        | ',' :: rest =>
            (pJson fuel 2 rest).bind (fun ap =>
              match ap.1 with
              | .arr elems => some (.arr (vp.1 :: elems), ap.2)
              | _ => none)
        | ']' :: rest => some (.arr [vp.1], rest)
        | _ => none)

/-- Parse a complete JSON document (model of Python `json.loads` over
the protocol subset). -/
def jsonParse (s : String) : Option JVal :=
  (pJson (2 * s.length + 4) 0 s.data).bind
    (fun p => if skipWs p.2 = [] then some p.1 else none)

/-- Decode bytes as text (model of UTF-8 decoding, restricted to the
ASCII payloads the protocol produces). -/
def asciiDecode (bs : List Nat) : Option String :=
  if bs.all (fun b => b < 128) then some ⟨bs.map Char.ofNat⟩ else none

/-! ## Ethereum addresses and EIP-55 checksumming -/

/-- Parse an EVM address string (optional `0x`/`0X` mark, exactly 40 hex
digits, any case) to its 160-bit value.  `none` models the `ValueError`
raised by `eth_utils.to_checksum_address` on malformed input. -/
def parseAddress (s : String) : Option Nat :=
  if (stripHexMark s.data).length = 40 then hexDigitsToNat (stripHexMark s.data)
  else none

/-- Upper-casing restricted to lower-case hex digit characters — the
model of Python `str.upper()` at the EIP-55 call site, whose inputs are
exactly the characters `0-9a-f`. -/
def upperHexChar (c : Char) : Char :=
  if c = 'a' then 'A'
  else if c = 'b' then 'B'
  else if c = 'c' then 'C'
  else if c = 'd' then 'D'
  else if c = 'e' then 'E'
  else if c = 'f' then 'F'
  else c

/-- The 40 lower-case hex characters of a 160-bit address value. -/
def addrHexChars (a : Nat) : List Char :=
  ((beBytes 20 a).map (fun b => [hexDigitChar (b / 16), hexDigitChar (b % 16)])).flatten

/-- The `i`-th hex digit (big-endian nibble) of a keccak hash given as a
byte list. -/
def hashNibble (h : List Nat) (i : Nat) : Nat :=
  if i % 2 = 0 then (h.getD (i / 2) 0) / 16 else (h.getD (i / 2) 0) % 16

/-- EIP-55 checksum rendering of a 160-bit address value (the core of
`eth_utils.to_checksum_address`): keccak the lower-case hex characters
and upper-case every hex letter whose hash nibble is at least 8. -/
def checksumRender (a : Nat) : String :=
  let hx := addrHexChars a
  let h := keccak256 (hx.map Char.toNat)
  ⟨'0' :: 'x' :: (List.zipWith (fun c b => if b then upperHexChar c else c)
    hx ((List.range 40).map (fun i => decide (8 ≤ hashNibble h i))))⟩

/-- `eth_utils.to_checksum_address`: validate, then render with the
EIP-55 mixed-case checksum. -/
def toChecksumAddress (s : String) : Option String :=
  (parseAddress s).map checksumRender

/-! ## EIP-712 typed-data encoding

Model of `eth_account.messages.encode_typed_data(full_message=...)`
followed by the digest computation that `sign_message` /
`recover_message` apply, specialised to the one type family both
`client.py` and `verification.py` construct
(`EIP712Domain{name,version,chainId,verifyingContract}` and
`TransferWithAuthorization`). -/

/-- abi encoding of a `uint256` component; out-of-range values model the
library's raised exception. -/
def enc712Uint (x : Int) : Option (List Nat) :=
  if 0 ≤ x ∧ x < (2 : Int) ^ 256 then some (beBytes 32 x.toNat) else none

/-- abi encoding of an `address` component from its string form
(case-insensitive; 20 bytes left-padded to 32). -/
def enc712Addr (s : String) : Option (List Nat) :=
  (parseAddress s).map (fun a => beBytes 32 a)

/-- Hex character pairs to bytes. -/
def hexCharsToBytes : List Char → Option (List Nat)
  | [] => some []
  | c1 :: c2 :: rest =>
      (hexDigitVal c1).bind (fun h =>
        (hexDigitVal c2).bind (fun l =>
          (hexCharsToBytes rest).map (fun t => (16 * h + l) :: t)))
  | _ => none

/-- abi encoding of a `bytes32` component given as a hex string, the way
`encode_typed_data` treats it: `to_bytes(hexstr=…)` strips an optional
`0x` mark and left-pads odd-length hex with one zero nibble, then
eth_abi's fixed-size bytes encoder right-pads anything up to 32 bytes
with zeros (`zpad_right`) and raises only for values longer than 32
bytes (modelled as `none`, as is non-hex input). -/
def enc712Bytes32 (s : String) : Option (List Nat) :=
  (hexCharsToBytes (if (stripHexMark s.data).length % 2 = 1 then
      '0' :: stripHexMark s.data else stripHexMark s.data)).bind
    (fun bs => if bs.length ≤ 32 then some (bs ++ List.replicate (32 - bs.length) 0)
      else none)

/-- The canonical `TransferWithAuthorization` type string
(`EIP3009_TRANSFER_WITH_AUTHORIZATION_TYPEHASH` in `protocol.py`). -/
def twaTypeString : String :=
  "TransferWithAuthorization(address from,address to,uint256 value,uint256 validAfter,uint256 validBefore,bytes32 nonce)"

/-- The `EIP712Domain` type string for the four-field domain both sides
declare. -/
def domainTypeString : String :=
  "EIP712Domain(string name,string version,uint256 chainId,address verifyingContract)"

/-- `hashStruct` of the EIP-712 domain. -/
def hashStructDomain (name version : String) (chainId : Int) (vc : String) :
    Option (List Nat) :=
  (enc712Uint chainId).bind (fun cid =>
    (enc712Addr vc).map (fun vcb =>
      keccak256 (keccak256 (strBytes domainTypeString) ++
        keccak256 (strBytes name) ++ keccak256 (strBytes version) ++ cid ++ vcb)))

/-- `hashStruct` of the `TransferWithAuthorization` message. -/
def hashStructTwa (fromS toS : String) (value va vb : Int) (nonce : String) :
    Option (List Nat) :=
  (enc712Addr fromS).bind (fun fb =>
    (enc712Addr toS).bind (fun tb =>
      (enc712Uint value).bind (fun vb1 =>
        (enc712Uint va).bind (fun vab =>
          (enc712Uint vb).bind (fun vbb =>
            (enc712Bytes32 nonce).map (fun nb =>
              keccak256 (keccak256 (strBytes twaTypeString) ++
                fb ++ tb ++ vb1 ++ vab ++ vbb ++ nb)))))))

/-- The EIP-712 digest `keccak256(0x19 || 0x01 || domainSeparator ||
structHash)` both `client.py` (before signing) and `verification.py`
(before recovery) compute from their typed-data structures. -/
def typedDataDigest (name version : String) (chainId : Int) (vc fromS toS : String)
    (value va vb : Int) (nonce : String) : Option (List Nat) :=
  (hashStructDomain name version chainId vc).bind (fun ds =>
    (hashStructTwa fromS toS value va vb nonce).map (fun sh =>
      keccak256 (0x19 :: 0x01 :: (ds ++ sh))))

/-! ## Idealized secp256k1 signatures

The sources call `eth_account`'s `Account.sign_message` /
`Account.recover_message`.  Elliptic-curve arithmetic is replaced by the
standard idealized signature model: signing an EIP-712 digest with the
account of address `a` yields `v = 27`, `r = a` and `s = ` the digest
read as a 256-bit integer, and recovery returns `some r` exactly when
`v` is accepted by the library and `s` matches the digest being
verified (any other signature behaves as the library's `BadSignature`).
The accepted `v` values follow `to_standard_v` of
`eth_account._utils.signing`, which `recover_message` applies to the
final signature byte: `27`/`28` are shifted down to recovery ids, `0`/`1`
pass through unchanged, `v ≥ 35` is normalized to `(v - 35) % 2`
(EIP-155), and every other value — `2`-`26` and `29`-`34` — raises
`ValueError`.  Under this model recovery succeeds on precisely the
digest that was signed, which is the property the protocol relies on. -/

/-- An ECDSA signature as the triple the wire carries. -/
structure SigVRS where
  v : Int
  r : Nat
  s : Nat
deriving DecidableEq, Repr

/-- Idealized `Account.sign_message` (see the section comment). -/
def idealSign (signer : Nat) (digest : List Nat) : SigVRS :=
  ⟨27, signer, bytesToNat digest⟩

/-- Idealized `Account.recover_message` (see the section comment): `v`
values outside what `to_standard_v` accepts — `{0, 1, 27, 28}` and
`35` upward — make the library raise, modelled as `none`. -/
def idealRecover (digest : List Nat) (v : Int) (r s : Nat) : Option Nat :=
  if v = 0 ∨ v = 1 ∨ v = 27 ∨ v = 28 ∨ 35 ≤ v then
    (if s = bytesToNat digest then (if r < 2 ^ 160 then some r else none) else none)
  else none

/-! ## IEEE-754 binary64 (Python `float`)

`resource_server.create_payment_requirements` computes
`int(float(amount_usd) * 10 ** TOKEN_DECIMALS)`.  Python floats are
IEEE-754 binary64 values; the model represents a double by its exact
rational value and implements correct rounding to a 53-bit significand
with round-half-to-even, which is what both `float(str)` parsing and
float multiplication perform.  Overflow to infinity and subnormal
underflow are outside the numeric range of any payment amount and are
not modelled. -/

/-- Bit length with explicit fuel (structurally recursive so that proofs
can evaluate it): `bitLen n = ⌊log₂ n⌋ + 1` for `n ≥ 1`. -/
def bitLenAux : Nat → Nat → Nat
  | 0, _ => 0
  | f + 1, n => if n = 0 then 0 else bitLenAux f (n / 2) + 1

/-- Bit length of a natural number. -/
def bitLen (n : Nat) : Nat := bitLenAux n n

/-- Is `a / b < 2 ^ k` (for `a, b ≥ 1` and a signed exponent)? -/
def fracLtPow2 (a b : Nat) (k : Int) : Bool :=
  if 0 ≤ k then a < 2 ^ k.toNat * b else a * 2 ^ (-k).toNat < b

/-- `⌊log₂ (a / b)⌋` for `a, b ≥ 1`, from the bit lengths with one
correction step. -/
def floorLog2Frac (a b : Nat) : Int :=
  let e0 : Int := (bitLen a : Int) - (bitLen b : Int)
  if fracLtPow2 a b e0 then e0 - 1 else e0

/-- Round `n / d` (both positive) to the nearest integer, ties to even. -/
def rne (n d : Nat) : Nat :=
  let q := n / d
  let r := n % d
  if d < 2 * r then q + 1
  else if 2 * r < d then q
  else if q % 2 = 0 then q else q + 1

/-- A Python `float` (IEEE-754 binary64) as its exact value: a sign and
a magnitude fraction whose denominator is a power of two.  Zero is
`⟨false, 0, 1⟩`. -/
structure PyFloatV where
  neg : Bool
  num : Nat
  den : Nat
deriving DecidableEq, Repr

/-- Round the fraction `± a / b` to the nearest binary64 value (53-bit
significand, round-half-to-even).  Overflow to infinity and subnormal
underflow are outside the numeric range of any payment amount and are
not modelled. -/
def roundDouble (neg : Bool) (a b : Nat) : PyFloatV :=
  if a = 0 then ⟨false, 0, 1⟩
  else
    let e := floorLog2Frac a b
    let m :=
      if 0 ≤ 52 - e then rne (a * 2 ^ (52 - e).toNat) b
      else rne a (b * 2 ^ (e - 52).toNat)
    -- `m * 2 ^ (e - 52)` as a fraction; `m = 2 ^ 53` (carry out of the
    -- rounding) is handled by the same formula.
    if 52 ≤ e then ⟨neg, m * 2 ^ (e - 52).toNat, 1⟩
    else ⟨neg, m, 2 ^ (52 - e).toNat⟩

/-- Sign, mantissa and decimal exponent of a decimal numeral: optional
sign, integer digits, optional fraction, optional exponent (the grammar
of Python `float(str)`, without whitespace or `_`).  The value is
`± mantissa * 10 ^ exp`. -/
def parseDecimalParts (s : String) : Option (Bool × Nat × Int) :=
  let afterSign : Bool → List Char → Option (Bool × Nat × Int) := fun neg cs =>
    let (ip, rest1) := cs.span isDigitChar
    let (fp, rest2) :=
      (match rest1 with
       | '.' :: r => r.span isDigitChar
       | _ => ([], rest1))
    if ip.isEmpty ∧ fp.isEmpty then none
    else
      let mantissa : Option Nat := decDigitsToNat (ip ++ fp)
      let expo : Option Int :=
        (match rest2 with
         | [] => some 0
         | 'e' :: r => expDigits r
         | 'E' :: r => expDigits r
         | _ => none)
      (mantissa.bind (fun m => expo.map (fun ex =>
        (neg, m, ex - (fp.length : Int)))))
  match s.data with
  | '-' :: cs => afterSign true cs
  | '+' :: cs => afterSign false cs
  | cs => afterSign false cs
where
  /-- signed decimal integer over a character list (for the exponent). -/
  expDigits : List Char → Option Int
    | [] => none
    | '-' :: ds => if ds.isEmpty then none else (decDigitsToNat ds).map (fun n => -(n : Int))
    | '+' :: ds => if ds.isEmpty then none else (decDigitsToNat ds).map (fun n => (n : Int))
    | ds => (decDigitsToNat ds).map (fun n => (n : Int))

/-- Python `float(s)`: the decimal value correctly rounded to binary64. -/
def pyFloat (s : String) : Option PyFloatV :=
  (parseDecimalParts s).map (fun p =>
    let (neg, m, ex) := p
    if 0 ≤ ex then roundDouble neg (m * 10 ^ ex.toNat) 1
    else roundDouble neg m (10 ^ (-ex).toNat))

/-- Python float multiplication: exact product of the two values,
rounded back to binary64. -/
def pyFloatMul (x y : PyFloatV) : PyFloatV :=
  roundDouble (xor x.neg y.neg) (x.num * y.num) (x.den * y.den)

/-- The Python float value of the integer `10 ** d` (the implicit
`int → float` conversion in `amount_float * 10 ** TOKEN_DECIMALS`). -/
def pyFloatPow10 (d : Nat) : PyFloatV :=
  roundDouble false (10 ^ d) 1

/-- Python `int()` on a float: truncation toward zero. -/
def pyTruncToInt (x : PyFloatV) : Int :=
  if x.neg then -((x.num / x.den : Nat) : Int) else ((x.num / x.den : Nat) : Int)

/-- `amount_usd.replace("$", "")`: removing every occurrence of the
single-character pattern is dropping every `$`. -/
def stripDollar (s : String) : String :=
  ⟨s.data.filter (fun c => c ≠ '$')⟩

/-! ## Protocol data structures (`protocol.py`) -/

/-- `PaymentRequirements`.  `extra` is the optional EIP-712 domain
dictionary; the protocol stores strings in it (`{"name": …, "version":
…}`), so it is modelled as a string-valued association list. -/
structure PaymentRequirementsT where
  scheme : String
  network : String
  maxAmountRequired : String
  resource : String
  description : String
  mimeType : String
  outputSchema : Option JVal
  payTo : String
  maxTimeoutSeconds : Int
  asset : String
  extra : Option (List (String × String))

/-- `PaymentPayload`: the outer envelope of the `X-PAYMENT` header. -/
structure PaymentPayloadT where
  x402Version : Int
  scheme : String
  network : String
  payload : List (String × JVal)

/-- `ExactPaymentPayload`: the signed inner authorization.  `from_`
mirrors the Python attribute that carries the wire name `from`; `to_`
stands for the attribute `to`, which is reserved in Lean. -/
structure ExactPaymentPayloadT where
  from_ : String
  to_ : String
  value : String
  validAfter : String
  validBefore : String
  nonce : String
  v : Int
  r : String
  s : String
deriving DecidableEq, Repr

/-- pydantic `str` field validation (v2 lax mode does not coerce
numbers to strings). -/
def jAsStr : JVal → Option String
  | .str s => some s
  | _ => none

/-- pydantic `int` field validation (v2 lax mode coerces numeric
strings; booleans and other values are rejected). -/
def jAsInt : JVal → Option Int
  | .num n => some n
  | .str s => pyIntDec s
  | _ => none

/-- pydantic `Dict[str, Any]` field validation. -/
def jAsObj : JVal → Option (List (String × JVal))
  | .obj fields => some fields
  | _ => none

/-- pydantic validation of `PaymentPayload` from parsed JSON
(`x402Version` defaults to `1`; `scheme`, `network`, `payload`
required).  Unknown keys are ignored, as in pydantic's default config. -/
def validatePaymentPayload (j : JVal) : Option PaymentPayloadT :=
  (jAsObj j).bind (fun fields =>
    (match jLookup fields "x402Version" with
     | none => some 1
     | some v => jAsInt v).bind (fun ver =>
      ((jLookup fields "scheme").bind jAsStr).bind (fun scheme =>
        ((jLookup fields "network").bind jAsStr).bind (fun network =>
          ((jLookup fields "payload").bind jAsObj).map (fun payload =>
            ⟨ver, scheme, network, payload⟩)))))

/-- pydantic validation of `ExactPaymentPayload` from the envelope's
`payload` dictionary (`ExactPaymentPayload(**payment_payload.payload)`).
The `from` key populates the aliased `from_` attribute. -/
def validateExactPayload (d : List (String × JVal)) : Option ExactPaymentPayloadT :=
  ((jLookup d "from").bind jAsStr).bind (fun fromS =>
    ((jLookup d "to").bind jAsStr).bind (fun toS =>
      ((jLookup d "value").bind jAsStr).bind (fun value =>
        ((jLookup d "validAfter").bind jAsStr).bind (fun va =>
          ((jLookup d "validBefore").bind jAsStr).bind (fun vb =>
            ((jLookup d "nonce").bind jAsStr).bind (fun nonce =>
              ((jLookup d "v").bind jAsInt).bind (fun v =>
                ((jLookup d "r").bind jAsStr).bind (fun r =>
                  ((jLookup d "s").bind jAsStr).map (fun s =>
                    ⟨fromS, toS, value, va, vb, nonce, v, r, s⟩)))))))))

/-- Decode and validate an `X-PAYMENT` header:
base64, then JSON, then `PaymentPayload` validation. -/
def parsePaymentHeader (header : String) : Option PaymentPayloadT :=
  ((b64decode header).bind asciiDecode).bind
    (fun txt => (jsonParse txt).bind validatePaymentPayload)

/-! ## Verifier (`verification.py`, class `PaymentVerifier`)

`now` is the chain tip's block timestamp
(`self.web3.eth.get_block("latest")["timestamp"]`), passed explicitly.
The catch-all `str(e)` texts of the two `except Exception` handlers are
modelled by fixed descriptive strings; no claim depends on their
wording. -/

/-- Placeholder text of `f"Exact scheme verification error: {str(e)}"`. -/
def exactSchemeErrMsg : String := "Exact scheme verification error: invalid payload"

/-- Placeholder text of `f"Signature verification error: {str(e)}"`. -/
def sigErrMsg : String := "Signature verification error: bad signature data"

/-- Lookup in the string-valued `extra` dictionary. -/
def sLookup (l : List (String × String)) (k : String) : Option String :=
  (l.reverse.find? (fun p => p.1 = k)).map (fun p => p.2)

/-- `str.split(":")` over a character list (keeps empty segments, like
Python's `split` with an explicit separator). -/
def splitColonAux : List Char → List Char → List (List Char)
  | acc, [] => [acc.reverse]
  | acc, c :: rest =>
      if c = ':' then acc.reverse :: splitColonAux [] rest
      else splitColonAux (c :: acc) rest

/-- `int(payment_requirements.network.split(":")[-1])`. -/
def parseChainId (network : String) : Option Int :=
  pyIntDec ⟨(splitColonAux [] network.data).getLastD []⟩

/-- `PaymentVerifier._verify_eip3009_signature`: reconstruct the EIP-712
digest from the payment requirements and the payload's fields, rebuild
the 65-byte signature from `v`, `r`, `s`, recover the signer and compare
it (case-insensitively, hence by 160-bit value) with `from`. -/
def verifyEip3009Sig (p : ExactPaymentPayloadT) (req : PaymentRequirementsT)
    (fromA : Nat) : Bool × Option String :=
  match req.extra with
  | none => (false, some "Missing EIP-712 domain parameters in extra")
  | some extra =>
    if extra.isEmpty then (false, some "Missing EIP-712 domain parameters in extra")
    else
      match sLookup extra "name", sLookup extra "version" with
      | some name, some version =>
        if name = "" ∨ version = "" then (false, some "Missing name or version in extra")
        else
          match parseChainId req.network with
          | none => (false, some ("Invalid network format: " ++ req.network))
          | some chainId =>
            match pyIntDec p.value, pyIntDec p.validAfter, pyIntDec p.validBefore with
            | some value, some va, some vb =>
              match typedDataDigest name version chainId req.asset p.from_ p.to_
                  value va vb p.nonce with
              | none => (false, some sigErrMsg)
              | some digest =>
                match pyIntHex p.r, pyIntHex p.s with
                | some r, some s =>
                  if r < 0 ∨ (2 : Int) ^ 256 ≤ r ∨ s < 0 ∨ (2 : Int) ^ 256 ≤ s then
                    (false, some sigErrMsg)
                  else if p.v < 0 ∨ 256 ≤ p.v then (false, some sigErrMsg)
                  else
                    match idealRecover digest p.v r.toNat s.toNat with
                    | none => (false, some sigErrMsg)
                    | some rec =>
                      if rec ≠ fromA then
                        (false, some ("Signature verification failed: recovered " ++
                          checksumRender rec ++ ", expected " ++ checksumRender fromA))
                      else (true, none)
                | _, _ => (false, some sigErrMsg)
            | _, _, _ => (false, some sigErrMsg)
      | _, _ => (false, some "Missing name or version in extra")

/-- The tail of `_verify_exact_scheme` after the time-window check:
delegate to the signature check and wrap its result. -/
def sigStage (p : ExactPaymentPayloadT) (req : PaymentRequirementsT)
    (fromA : Nat) : Bool × Option String :=
  let r := verifyEip3009Sig p req fromA
  if r.1 then (true, none) else (false, r.2)

/-- The tail of `_verify_exact_scheme` after the amount check: parse the
validity window, compare with the chain time, then check the
signature. -/
def windowStage (p : ExactPaymentPayloadT) (req : PaymentRequirementsT)
    (now : Int) (fromA : Nat) : Bool × Option String :=
  match pyIntDec p.validAfter, pyIntDec p.validBefore with
  | some va, some vb =>
    if now < va then
      (false, some ("Payment not yet valid: current time " ++ intDecStr now ++
        " < validAfter " ++ intDecStr va))
    else if vb < now then
      (false, some ("Payment expired: current time " ++ intDecStr now ++
        " > validBefore " ++ intDecStr vb))
    else sigStage p req fromA
  | _, _ => (false, some exactSchemeErrMsg)

/-- `PaymentVerifier._verify_exact_scheme`: decode the inner payload,
checksum-validate the addresses, check recipient, amount (by string
equality), time window, then the EIP-3009 signature. -/
def verifyExactScheme (d : List (String × JVal)) (req : PaymentRequirementsT)
    (now : Int) : Bool × Option String :=
  match validateExactPayload d with
  | none => (false, some exactSchemeErrMsg)
  | some p =>
    match parseAddress p.from_, parseAddress p.to_, parseAddress req.payTo with
    | some fromA, some toA, some reqToA =>
      if toA ≠ reqToA then
        (false, some ("Recipient mismatch: expected " ++ checksumRender reqToA ++
          ", got " ++ checksumRender toA))
      else if p.value ≠ req.maxAmountRequired then
        (false, some ("Amount mismatch: expected " ++ req.maxAmountRequired ++
          ", got " ++ p.value))
      else windowStage p req now fromA
    | _, _, _ => (false, some "Invalid address format: address is malformed")

/-- `PaymentVerifier.verify_payment`: decode the header, check protocol
version, scheme and network agreement, then dispatch to the
scheme-specific verification. -/
def verifyPayment (header : String) (req : PaymentRequirementsT) (now : Int) :
    Bool × Option String :=
  match b64decode header with
  | none => (false, some "Invalid base64 encoding: malformed header")
  | some bytes =>
    match (asciiDecode bytes).bind (fun txt => (jsonParse txt).bind validatePaymentPayload) with
    | none => (false, some "Verification error: validation error for PaymentPayload")
    | some pp =>
      if pp.x402Version ≠ 1 then
        (false, some ("Unsupported protocol version: " ++ intDecStr pp.x402Version))
      else if pp.scheme ≠ req.scheme then
        (false, some ("Scheme mismatch: expected " ++ req.scheme ++ ", got " ++ pp.scheme))
      else if pp.network ≠ req.network then
        (false, some ("Network mismatch: expected " ++ req.network ++ ", got " ++ pp.network))
      else if pp.scheme = "exact" then verifyExactScheme pp.payload req now
      else (false, some ("Unsupported payment scheme: " ++ pp.scheme))

/-! ## Client payment constructor (`client.py`,
`X402Client._create_exact_payment`)

The random 32-byte nonce and the reference time are passed as
parameters.  Every `raise` in the source is modelled as `none`.  The
function covers lines 140-236 of `client.py`: window computation, domain
extraction, checksum normalization, typed-data construction, signing and
assembly of the `ExactPaymentPayload`. -/

def createExactPayment (accountAddress : String) (req : PaymentRequirementsT)
    (validDuration : Int) (currentTime : Int) (nonce : String) :
    Option ExactPaymentPayloadT :=
  let validAfter := currentTime - 10
  let validBefore := currentTime + validDuration
  match req.extra with
  | none => none
  | some extra =>
    if extra.isEmpty then none
    else
      match sLookup extra "name", sLookup extra "version" with
      | some name, some version =>
        if name = "" ∨ version = "" then none
        else
          match parseChainId req.network with
          | none => none
          | some chainId =>
            match parseAddress accountAddress, parseAddress req.payTo,
                parseAddress req.asset with
            | some fromA, some toA, some vcA =>
              let fromS := checksumRender fromA
              let toS := checksumRender toA
              let vcS := checksumRender vcA
              match pyIntDec req.maxAmountRequired with
              | none => none
              | some value =>
                match typedDataDigest name version chainId vcS fromS toS
                    value validAfter validBefore nonce with
                | none => none
                | some digest =>
                  let sig := idealSign fromA digest
                  some ⟨fromS, toS, req.maxAmountRequired,
                    intDecStr validAfter, intDecStr validBefore, nonce,
                    sig.v, "0x" ++ natHexFixed 32 sig.r, "0x" ++ natHexFixed 32 sig.s⟩
            | _, _, _ => none
      | _, _ => none

/-- The digest the client signs (the `encode_typed_data` call of
`client.py` line 219), exposed for the digest-equality statement. -/
def clientSigningDigest (accountAddress : String) (req : PaymentRequirementsT)
    (validDuration : Int) (currentTime : Int) (nonce : String) :
    Option (List Nat) :=
  match req.extra with
  | none => none
  | some extra =>
    if extra.isEmpty then none
    else
      match sLookup extra "name", sLookup extra "version" with
      | some name, some version =>
        if name = "" ∨ version = "" then none
        else
          match parseChainId req.network with
          | none => none
          | some chainId =>
            match parseAddress accountAddress, parseAddress req.payTo,
                parseAddress req.asset with
            | some fromA, some toA, some vcA =>
              (pyIntDec req.maxAmountRequired).bind (fun value =>
                typedDataDigest name version chainId (checksumRender vcA)
                  (checksumRender fromA) (checksumRender toA)
                  value (currentTime - 10) (currentTime + validDuration) nonce)
            | _, _, _ => none
      | _, _ => none

/-- The digest the verifier reconstructs from a decoded payload (the
`encode_typed_data` call of `verification.py` line 222), exposed for the
digest-equality statement. -/
def verifierDigest (p : ExactPaymentPayloadT) (req : PaymentRequirementsT) :
    Option (List Nat) :=
  match req.extra with
  | none => none
  | some extra =>
    if extra.isEmpty then none
    else
      match sLookup extra "name", sLookup extra "version" with
      | some name, some version =>
        if name = "" ∨ version = "" then none
        else
          match parseChainId req.network with
          | none => none
          | some chainId =>
            match pyIntDec p.value, pyIntDec p.validAfter, pyIntDec p.validBefore with
            | some value, some va, some vb =>
              typedDataDigest name version chainId req.asset p.from_ p.to_
                value va vb p.nonce
            | _, _, _ => none
      | _, _ => none

/-! ## Facilitator `/settle` endpoint (`facilitator_server.py`,
`settle_payment`)

The on-chain settler is passed as a function parameter returning the
`(success, error, tx_hash)` triple of `PaymentSettler.settle_payment`.
The result records the HTTP status, the `SettlementResponse` body, and
whether the settler was invoked. -/

/-- `SettlementResponse` of `protocol.py`. -/
structure SettlementResponseT where
  success : Bool
  error : Option String
  txHash : Option String
  networkId : Option String
deriving DecidableEq, Repr

/-- `POST /settle`: verify first; on failure answer HTTP 200 with
`success=false` and never touch the settler; on success decode the
payload again and delegate to the settler. -/
def settleEndpoint (header : String) (req : PaymentRequirementsT) (now : Int)
    (settler : PaymentPayloadT → PaymentRequirementsT →
      Bool × Option String × Option String) :
    Nat × SettlementResponseT × Bool :=
  let vr := verifyPayment header req now
  if vr.1 = false then
    (200,
      ⟨false,
        some ("Verification failed: " ++ (match vr.2 with | some e => e | none => "None")),
        none, none⟩,
      false)
  else
    match parsePaymentHeader header with
    | none => (500, ⟨false, some "Settlement failed: internal error", none, none⟩, false)
    | some pp =>
      let res := settler pp req
      (200,
        ⟨res.1, res.2.1, res.2.2, if res.1 then some req.network else none⟩,
        true)

/-! ## Resource-server middleware (`resource_server.py`) -/

/-- The middleware configuration drawn from the environment
(`CHAIN_ID`, `TOKEN_DECIMALS`, `RESOURCE_SERVER_ADDRESS`,
`TOKEN_CONTRACT_ADDRESS`). -/
structure MiddlewareConfig where
  chainId : String
  tokenDecimals : Nat
  payToAddress : String
  assetAddress : String

/-- `create_payment_requirements`: strip a dollar sign, parse the amount
with Python `float`, convert to atomic units with
`int(amount_float * 10 ** TOKEN_DECIMALS)` (binary64 arithmetic), and
assemble the requirements.  `none` models the `ValueError` Python
`float()` raises on a malformed amount. -/
def createPaymentRequirements (cfg : MiddlewareConfig) (amountUsd : String)
    (resourcePath : String) (description : String) (mimeType : String) :
    Option PaymentRequirementsT :=
  (pyFloat (stripDollar amountUsd)).map (fun amountFloat =>
    let amountAtomic : Int :=
      pyTruncToInt (pyFloatMul amountFloat (pyFloatPow10 cfg.tokenDecimals))
    { scheme := "exact"
      network := "eip155:" ++ cfg.chainId
      maxAmountRequired := intDecStr amountAtomic
      resource := resourcePath
      description := description
      mimeType := mimeType
      outputSchema := none
      payTo := cfg.payToAddress
      maxTimeoutSeconds := 60
      asset := cfg.assetAddress
      extra := some [("name", "USDC"), ("version", "2")] })

/-- JSON rendering of `PaymentRequirements.model_dump(by_alias=True)`
(field order as declared; `jsonify` key ordering is irrelevant to every
statement below, which reads bodies through key lookup). -/
def reqToJson (r : PaymentRequirementsT) : JVal :=
  .obj [("scheme", .str r.scheme), ("network", .str r.network),
        ("maxAmountRequired", .str r.maxAmountRequired),
        ("resource", .str r.resource), ("description", .str r.description),
        ("mimeType", .str r.mimeType),
        ("outputSchema", r.outputSchema.getD .null),
        ("payTo", .str r.payTo),
        ("maxTimeoutSeconds", .num r.maxTimeoutSeconds),
        ("asset", .str r.asset),
        ("extra", match r.extra with
                  | none => .null
                  | some l => .obj (l.map (fun p => (p.1, JVal.str p.2))))]

/-- JSON rendering of a `PaymentRequiredResponse`. -/
def paymentRequiredJson (reqs : PaymentRequirementsT) (error : Option String) : JVal :=
  .obj [("x402Version", .num 1), ("accepts", .arr [reqToJson reqs]),
        ("error", match error with | none => .null | some e => .str e)]

/-- Key lookup on a JSON object value. -/
def jGet (v : JVal) (k : String) : Option JVal :=
  match v with
  | .obj fields => jLookup fields k
  | _ => none

/-- Escaping of the characters `json.dumps` escapes in the receipt
strings the settlement path serializes. -/
def jsonEscape (s : String) : String :=
  ⟨(s.data.map (fun c =>
      if c = '"' then ['\\', '"']
      else if c = '\\' then ['\\', '\\']
      else if c = '\n' then ['\\', 'n']
      else if c = '\r' then ['\\', 'r']
      else if c = '\t' then ['\\', 't']
      else [c])).flatten⟩

/-- `json.dumps` of a scalar.  The settlement receipt's `txHash` and
`networkId` are `Optional[str]` in `SettlementResponse`, so only scalars
occur at the one call site using this. -/
def jDumpScalar : JVal → String
  | .null => "null"
  | .bool b => if b then "true" else "false"
  | .num n => intDecStr n
  | .str s => "\"" ++ jsonEscape s ++ "\""
  | _ => "null"

/-- `json.dumps({"txHash": …, "networkId": …})`. -/
def paymentResponseDump (tx nid : JVal) : String :=
  "\x7b\"txHash\": " ++ jDumpScalar tx ++ ", \"networkId\": " ++ jDumpScalar nid ++ "\x7d"

/-- Outcome of the middleware's `POST` to the facilitator's `/settle`:
an HTTP response (with its raw text and, if well-formed, its JSON), a
`requests.Timeout`, or another raised exception. -/
inductive FacilitatorOutcome where
  | response (status : Nat) (text : String) (json? : Option JVal)
  | timeout
  | failure (msg : String)

/-- The `require_payment` decorator of `resource_server.py` around one
request: returns the HTTP status, the response body and the value of the
`X-PAYMENT-RESPONSE` header if attached.  `handlerBody` is the wrapped
resource handler's JSON result. -/
def requirePayment (amountUsd description : String) (cfg : MiddlewareConfig)
    (paymentHeader : Option String) (path : String)
    (facilitator : FacilitatorOutcome) (handlerBody : JVal) :
    Nat × JVal × Option String :=
  match paymentHeader with
  | none =>
    (match createPaymentRequirements cfg amountUsd path description "application/json" with
     | none => (500, .null, none)
     | some reqs => (402, paymentRequiredJson reqs none, none))
  | some _ =>
    (match createPaymentRequirements cfg amountUsd path description "application/json" with
     | none => (500, .null, none)
     | some reqs =>
       match facilitator with
       | .timeout => (408, .obj [("error", .str "Payment verification timeout")], none)
       | .failure msg =>
           (500, .obj [("error", .str ("Payment verification failed: " ++ msg))], none)
       | .response status text json? =>
         if status ≠ 200 then
           (402, .obj [("error", .str "Payment settlement failed"),
                       ("details", .str text)], none)
         else
           match json? with
           | none =>
               (500, .obj [("error", .str "Payment verification failed: invalid JSON body")],
                none)
           | some settleData =>
             match settleData with
             | .obj fields =>
               if jTruthy ((jLookup fields "success").getD .null) = false then
                 (match (match jLookup fields "error" with
                         | none => JVal.str "Payment failed"
                         | some e => e) with
                  | .str es => (402, paymentRequiredJson reqs (some es), none)
                  | .null => (402, paymentRequiredJson reqs none, none)
                  | _ => (500, .obj [("error",
                          .str "Payment verification failed: validation error")], none))
               else
                 let tx := (jLookup fields "txHash").getD .null
                 if jTruthy tx then
                   (200, handlerBody,
                    some (b64encode (strBytes
                      (paymentResponseDump tx ((jLookup fields "networkId").getD .null)))))
                 else (200, handlerBody, none)
             | _ =>
                 (500, .obj [("error",
                   .str "Payment verification failed: malformed settle body")], none))

/-! ## Spec-side definition for the amount conversion

The specification (section 4.5) prescribes
`maxAmountRequired = floor(amountUSD · 10^tokenDecimals)` with the
product taken over the exact decimal value of the amount string.  This
definition follows the spec's words (not the code) and exists to be
compared with `createPaymentRequirements`. -/

/-- `floor(amountUSD * 10 ^ d)` over the exact decimal value of the
(possibly `$`-prefixed) amount string. -/
def specAmountAtomic (amountUsd : String) (d : Nat) : Option Int :=
  (parseDecimalParts (stripDollar amountUsd)).map (fun p =>
    let (neg, m, ex) := p
    let k : Int := ex + d
    if 0 ≤ k then
      (if neg then -((m : Int) * 10 ^ k.toNat) else (m : Int) * 10 ^ k.toNat)
    else
      let dd : Int := 10 ^ (-k).toNat
      if neg then -(((m : Int) + dd - 1) / dd) else (m : Int) / dd)

/-! ## Concrete fixtures for the closed statements -/

/-- A concrete requirements record (the `/weather` challenge of the demo
resource server, with placeholder addresses). -/
def rqW : PaymentRequirementsT :=
  { scheme := "exact", network := "eip155:84532", maxAmountRequired := "10000",
    resource := "/weather", description := "Current weather information",
    mimeType := "application/json", outputSchema := none,
    payTo := "0x2222222222222222222222222222222222222222",
    maxTimeoutSeconds := 60,
    asset := "0x3333333333333333333333333333333333333333",
    extra := some [("name", "USDC"), ("version", "2")] }

/-- A concrete middleware configuration with the default
`TOKEN_DECIMALS = 6`. -/
def mcfgDemo : MiddlewareConfig :=
  ⟨"84532", 6, "0x2222222222222222222222222222222222222222",
   "0x3333333333333333333333333333333333333333"⟩

/-- Header whose payload underpays (`value = "9999"` against
`maxAmountRequired = "10000"`), otherwise matching `rqW`. -/
def hdrUnderpay : String :=
  "eyJ4NDAyVmVyc2lvbiI6IDEsICJzY2hlbWUiOiAiZXhhY3QiLCAibmV0d29yayI6ICJlaXAxNTU6ODQ1MzIiLCAicGF5bG9hZCI6IHsiZnJvbSI6ICIweDExMTExMTExMTExMTExMTExMTExMTExMTExMTExMTExMTExMTExMTEiLCAidG8iOiAiMHgyMjIyMjIyMjIyMjIyMjIyMjIyMjIyMjIyMjIyMjIyMjIyMjIyMjIyIiwgInZhbHVlIjogIjk5OTkiLCAidmFsaWRBZnRlciI6ICI5OTAiLCAidmFsaWRCZWZvcmUiOiAiMTMwMCIsICJub25jZSI6ICIweDExMTExMTExMTExMTExMTExMTExMTExMTExMTExMTExMTExMTExMTExMTExMTExMTExMTExMTExMTExMTExMTEiLCAidiI6IDI3LCAiciI6ICIweDAxIiwgInMiOiAiMHgwMSJ9fQ=="

/-- Header whose window opens at `validAfter = "2000"`, after the chain
time `1000` used in the statements. -/
def hdrNotYet : String :=
  "eyJ4NDAyVmVyc2lvbiI6IDEsICJzY2hlbWUiOiAiZXhhY3QiLCAibmV0d29yayI6ICJlaXAxNTU6ODQ1MzIiLCAicGF5bG9hZCI6IHsiZnJvbSI6ICIweDExMTExMTExMTExMTExMTExMTExMTExMTExMTExMTExMTExMTExMTEiLCAidG8iOiAiMHgyMjIyMjIyMjIyMjIyMjIyMjIyMjIyMjIyMjIyMjIyMjIyMjIyMjIyIiwgInZhbHVlIjogIjEwMDAwIiwgInZhbGlkQWZ0ZXIiOiAiMjAwMCIsICJ2YWxpZEJlZm9yZSI6ICIxMzAwIiwgIm5vbmNlIjogIjB4MTExMTExMTExMTExMTExMTExMTExMTExMTExMTExMTExMTExMTExMTExMTExMTExMTExMTExMTExMTExMTExMSIsICJ2IjogMjcsICJyIjogIjB4MDEiLCAicyI6ICIweDAxIn19"

/-- Header with `v = 29` and all other checks passing against `rqW` at
chain time `1000`. -/
def hdrBadV : String :=
  "eyJ4NDAyVmVyc2lvbiI6IDEsICJzY2hlbWUiOiAiZXhhY3QiLCAibmV0d29yayI6ICJlaXAxNTU6ODQ1MzIiLCAicGF5bG9hZCI6IHsiZnJvbSI6ICIweDExMTExMTExMTExMTExMTExMTExMTExMTExMTExMTExMTExMTExMTEiLCAidG8iOiAiMHgyMjIyMjIyMjIyMjIyMjIyMjIyMjIyMjIyMjIyMjIyMjIyMjIyMjIyIiwgInZhbHVlIjogIjEwMDAwIiwgInZhbGlkQWZ0ZXIiOiAiOTkwIiwgInZhbGlkQmVmb3JlIjogIjEzMDAiLCAibm9uY2UiOiAiMHgxMTExMTExMTExMTExMTExMTExMTExMTExMTExMTExMTExMTExMTExMTExMTExMTExMTExMTExMTExMTExMTExIiwgInYiOiAyOSwgInIiOiAiMHgwMSIsICJzIjogIjB4MDEifX0="

/-- Header whose payload's nonce is `"0xdead"` (2 bytes), all other
checks passing against `rqW` at chain time `1000`. -/
def hdrShortNonce : String :=
  "eyJ4NDAyVmVyc2lvbiI6IDEsICJzY2hlbWUiOiAiZXhhY3QiLCAibmV0d29yayI6ICJlaXAxNTU6ODQ1MzIiLCAicGF5bG9hZCI6IHsiZnJvbSI6ICIweDExMTExMTExMTExMTExMTExMTExMTExMTExMTExMTExMTExMTExMTEiLCAidG8iOiAiMHgyMjIyMjIyMjIyMjIyMjIyMjIyMjIyMjIyMjIyMjIyMjIyMjIyMjIyIiwgInZhbHVlIjogIjEwMDAwIiwgInZhbGlkQWZ0ZXIiOiAiOTkwIiwgInZhbGlkQmVmb3JlIjogIjEzMDAiLCAibm9uY2UiOiAiMHhkZWFkIiwgInYiOiAyNywgInIiOiAiMHgwMSIsICJzIjogIjB4MDEifX0="

/-- Header whose payload's `value` is the string `"010000"`: the same
integer as `rqW`'s `"10000"`, rendered with a leading zero. -/
def hdrLeadingZero : String :=
  "eyJ4NDAyVmVyc2lvbiI6IDEsICJzY2hlbWUiOiAiZXhhY3QiLCAibmV0d29yayI6ICJlaXAxNTU6ODQ1MzIiLCAicGF5bG9hZCI6IHsiZnJvbSI6ICIweDExMTExMTExMTExMTExMTExMTExMTExMTExMTExMTExMTExMTExMTEiLCAidG8iOiAiMHgyMjIyMjIyMjIyMjIyMjIyMjIyMjIyMjIyMjIyMjIyMjIyMjIyMjIyIiwgInZhbHVlIjogIjAxMDAwMCIsICJ2YWxpZEFmdGVyIjogIjk5MCIsICJ2YWxpZEJlZm9yZSI6ICIxMzAwIiwgIm5vbmNlIjogIjB4MTExMTExMTExMTExMTExMTExMTExMTExMTExMTExMTExMTExMTExMTExMTExMTExMTExMTExMTExMTExMTExMSIsICJ2IjogMjcsICJyIjogIjB4MDEiLCAicyI6ICIweDAxIn19"

/-- The 32-byte demo nonce used by the concrete fixtures. -/
def demoNonce : String :=
  "0x1111111111111111111111111111111111111111111111111111111111111111"

/-- A decoded `payload` dictionary between the demo payer
(`0x1111…`) and `rqW`'s recipient, with the given wire fields. -/
def demoDict (value va vb nonce : String) (v : Int) : List (String × JVal) :=
  [("from", .str "0x1111111111111111111111111111111111111111"),
   ("to", .str "0x2222222222222222222222222222222222222222"),
   ("value", .str value), ("validAfter", .str va), ("validBefore", .str vb),
   ("nonce", .str nonce), ("v", .num v), ("r", .str "0x01"), ("s", .str "0x01")]

/-- The `ExactPaymentPayload` of `demoDict`. -/
def demoPayload (value va vb nonce : String) (v : Int) : ExactPaymentPayloadT :=
  ⟨"0x1111111111111111111111111111111111111111",
   "0x2222222222222222222222222222222222222222",
   value, va, vb, nonce, v, "0x01", "0x01"⟩

/-- The decoded `payload` dictionary of the `v = 0` counterexample: the
demo payer and `rqW`'s recipient in checksum form, `rqW`'s amount, the
window `[990, 1300]`, the demo nonce, `v = 0`, `r` carrying the payer
and the given `s`. -/
def dictV0 (s : String) : List (String × JVal) :=
  [("from", .str (checksumRender 0x1111111111111111111111111111111111111111)),
   ("to", .str (checksumRender 0x2222222222222222222222222222222222222222)),
   ("value", .str rqW.maxAmountRequired),
   ("validAfter", .str (intDecStr 990)), ("validBefore", .str (intDecStr 1300)),
   ("nonce", .str demoNonce), ("v", .num 0),
   ("r", .str ("0x" ++ natHexFixed 32 0x1111111111111111111111111111111111111111)),
   ("s", .str s)]

/-- The `ExactPaymentPayload` of `dictV0`. -/
def payloadV0 (s : String) : ExactPaymentPayloadT :=
  ⟨checksumRender 0x1111111111111111111111111111111111111111,
   checksumRender 0x2222222222222222222222222222222222222222,
   rqW.maxAmountRequired, intDecStr 990, intDecStr 1300, demoNonce, 0,
   "0x" ++ natHexFixed 32 0x1111111111111111111111111111111111111111, s⟩

/-! ## Round-trip lemmas for the numeral renderings -/

theorem foldl_hexStep_none (cs : List Char) : List.foldl hexStep none cs = none := by
  induction cs with
  | nil => rfl
  | cons c cs ih => simpa [hexStep] using ih

theorem foldl_decStep_none (cs : List Char) : List.foldl decStep none cs = none := by
  induction cs with
  | nil => rfl
  | cons c cs ih => simpa [decStep] using ih

theorem hexDigitVal_hexDigitChar : ∀ d, d < 16 → hexDigitVal (hexDigitChar d) = some d := by
  decide

theorem decDigitVal_decDigitChar : ∀ d, d < 10 → decDigitVal (decDigitChar d) = some d := by
  decide

theorem hexDigitVal_lt {c : Char} {d : Nat} (h : hexDigitVal c = some d) : d < 16 := by
  unfold hexDigitVal at h
  split_ifs at h <;> (injection h with h; omega)

theorem hexDigitVal_upperHexChar (c : Char) :
    hexDigitVal (upperHexChar c) = hexDigitVal c := by
  unfold upperHexChar
  split_ifs with h1 h2 h3 h4 h5 h6 <;> first
    | rfl
    | (subst_vars; decide)

theorem foldl_hexStep_byte (a b : Nat) (hb : b < 256) :
    List.foldl hexStep (some a) [hexDigitChar (b / 16), hexDigitChar (b % 16)] =
      some (a * 256 + b) := by
  have h1 : b / 16 < 16 := by
    have := Nat.div_le_div_right (c := 16) (Nat.le_of_lt_succ hb)
    omega
  have h2 : b % 16 < 16 := Nat.mod_lt _ (by norm_num)
  have hd := Nat.div_add_mod b 16
  simp [hexStep, hexDigitVal_hexDigitChar _ h1, hexDigitVal_hexDigitChar _ h2]
  omega

theorem foldl_hexStep_bytePairs (bs : List Nat) (h : ∀ b ∈ bs, b < 256) (a : Nat) :
    List.foldl hexStep (some a)
      ((bs.map (fun b => [hexDigitChar (b / 16), hexDigitChar (b % 16)])).flatten) =
      some (List.foldl (fun acc b => acc * 256 + b) a bs) := by
  induction bs generalizing a with
  | nil => rfl
  | cons b bs ih =>
    have hb : b < 256 := h b (by simp)
    rw [List.map_cons, List.flatten_cons, List.foldl_append, foldl_hexStep_byte a b hb,
      List.foldl_cons]
    exact ih (fun x hx => h x (by simp [hx])) (a * 256 + b)

theorem beBytes_succ (k n : Nat) :
    beBytes (k + 1) n = ((n >>> (8 * k)) % 256) :: beBytes k n := by
  unfold beBytes
  rw [List.range_succ_eq_map, List.map_cons, List.map_map]
  refine congrArg₂ _ (by simp) (List.map_congr_left (fun i hi => ?_))
  have h1 : k - (i + 1) = k - 1 - i := by omega
  simp [Function.comp, h1]

theorem mem_beBytes_lt (k n : Nat) : ∀ b ∈ beBytes k n, b < 256 := by
  intro b hb
  unfold beBytes at hb
  simp only [List.mem_map, List.mem_range] at hb
  obtain ⟨i, _, rfl⟩ := hb
  exact Nat.mod_lt _ (by norm_num)

theorem foldl_byteAcc_beBytes (k n : Nat) : ∀ a : Nat,
    List.foldl (fun acc b => acc * 256 + b) a (beBytes k n) =
      a * 2 ^ (8 * k) + n % 2 ^ (8 * k) := by
  induction k with
  | zero => simp [beBytes, Nat.mod_one]
  | succ k ih =>
    intro a
    rw [beBytes_succ, List.foldl_cons, ih]
    have hsh : n >>> (8 * k) = n / 2 ^ (8 * k) := Nat.shiftRight_eq_div_pow n (8 * k)
    have hpow : (2 : Nat) ^ (8 * (k + 1)) = 2 ^ (8 * k) * 256 := by
      rw [show 8 * (k + 1) = 8 * k + 8 by ring, pow_add]
      norm_num
    have hmod : n % 2 ^ (8 * (k + 1)) =
        n % 2 ^ (8 * k) + 2 ^ (8 * k) * (n / 2 ^ (8 * k) % 256) := by
      rw [hpow, Nat.mod_mul]
    rw [hsh, hmod, hpow]
    ring

theorem bytesToNat_beBytes (k n : Nat) : bytesToNat (beBytes k n) = n % 2 ^ (8 * k) := by
  unfold bytesToNat
  rw [foldl_byteAcc_beBytes]
  simp

theorem hexDigitsToNat_natHexFixedData (k n : Nat) :
    hexDigitsToNat (natHexFixed k n).data = some (n % 2 ^ (8 * k)) := by
  show List.foldl hexStep (some 0)
      (((beBytes k n).map (fun b => [hexDigitChar (b / 16), hexDigitChar (b % 16)])).flatten) =
    some (n % 2 ^ (8 * k))
  rw [foldl_hexStep_bytePairs _ (mem_beBytes_lt k n) 0, foldl_byteAcc_beBytes]
  simp

theorem length_bytePairsFlatten (bs : List Nat) :
    ((bs.map (fun b => [hexDigitChar (b / 16), hexDigitChar (b % 16)])).flatten).length =
      2 * bs.length := by
  induction bs with
  | nil => rfl
  | cons b bs ih =>
    rw [List.map_cons, List.flatten_cons, List.length_append, ih, List.length_cons]
    simp
    omega

theorem beBytes_length (k n : Nat) : (beBytes k n).length = k := by
  simp [beBytes]

theorem addrHexChars_length (a : Nat) : (addrHexChars a).length = 40 := by
  unfold addrHexChars
  rw [length_bytePairsFlatten, beBytes_length]

theorem foldl_hexStep_mask (cs : List Char) (flags : List Bool)
    (hlen : cs.length = flags.length) :
    ∀ o : Option Nat,
      List.foldl hexStep o
        (List.zipWith (fun c b => if b then upperHexChar c else c) cs flags) =
      List.foldl hexStep o cs := by
  induction cs generalizing flags with
  | nil => intro o; cases flags <;> rfl
  | cons c cs ih =>
    intro o
    cases flags with
    | nil => exact absurd hlen (by simp)
    | cons f fs =>
      rw [List.zipWith_cons_cons, List.foldl_cons, List.foldl_cons]
      have hstep : hexStep o (if f then upperHexChar c else c) = hexStep o c := by
        cases f <;> simp [hexStep, hexDigitVal_upperHexChar]
      rw [hstep]
      exact ih fs (by simpa using hlen) _

theorem foldl_hexStep_lt (cs : List Char) : ∀ a v : Nat,
    List.foldl hexStep (some a) cs = some v → v < (a + 1) * 16 ^ cs.length := by
  induction cs with
  | nil =>
    intro a v h
    simp only [List.foldl_nil, Option.some.injEq] at h
    subst h
    simp
  | cons c cs ih =>
    intro a v h
    rw [List.foldl_cons] at h
    cases hd : hexDigitVal c with
    | none =>
      rw [show hexStep (some a) c = none by simp [hexStep, hd], foldl_hexStep_none] at h
      cases h
    | some d =>
      have hd16 : d < 16 := hexDigitVal_lt hd
      rw [show hexStep (some a) c = some (16 * a + d) by simp [hexStep, hd]] at h
      have hih := ih _ _ h
      calc v < (16 * a + d + 1) * 16 ^ cs.length := hih
        _ ≤ ((a + 1) * 16) * 16 ^ cs.length := by
              have : 16 * a + d + 1 ≤ (a + 1) * 16 := by omega
              exact Nat.mul_le_mul_right _ this
        _ = (a + 1) * 16 ^ (cs.length + 1) := by ring
        _ = (a + 1) * 16 ^ (c :: cs).length := by rw [List.length_cons]

theorem hexDigitsToNat_lt {cs : List Char} {v : Nat} (h : hexDigitsToNat cs = some v) :
    v < 16 ^ cs.length := by
  have := foldl_hexStep_lt cs 0 v h
  simpa using this

theorem parseAddress_lt {s : String} {a : Nat} (h : parseAddress s = some a) :
    a < 2 ^ 160 := by
  unfold parseAddress at h
  split_ifs at h with hl
  have := hexDigitsToNat_lt h
  rw [hl] at this
  calc a < 16 ^ 40 := this
    _ = 2 ^ 160 := by norm_num

theorem parseAddress_checksumRender (a : Nat) (ha : a < 2 ^ 160) :
    parseAddress (checksumRender a) = some a := by
  unfold parseAddress checksumRender
  have hdata : (String.mk ('0' :: 'x' ::
      (List.zipWith (fun c b => if b then upperHexChar c else c)
        (addrHexChars a)
        ((List.range 40).map (fun i =>
          decide (8 ≤ hashNibble (keccak256 ((addrHexChars a).map Char.toNat)) i)))))).data =
      '0' :: 'x' :: (List.zipWith (fun c b => if b then upperHexChar c else c)
        (addrHexChars a)
        ((List.range 40).map (fun i =>
          decide (8 ≤ hashNibble (keccak256 ((addrHexChars a).map Char.toNat)) i)))) := rfl
  rw [hdata]
  have hstrip : stripHexMark ('0' :: 'x' :: (List.zipWith
      (fun c b => if b then upperHexChar c else c) (addrHexChars a)
      ((List.range 40).map (fun i =>
        decide (8 ≤ hashNibble (keccak256 ((addrHexChars a).map Char.toNat)) i))))) =
      List.zipWith (fun c b => if b then upperHexChar c else c) (addrHexChars a)
        ((List.range 40).map (fun i =>
          decide (8 ≤ hashNibble (keccak256 ((addrHexChars a).map Char.toNat)) i))) := rfl
  rw [hstrip]
  have hflags : ((List.range 40).map (fun i =>
      decide (8 ≤ hashNibble (keccak256 ((addrHexChars a).map Char.toNat)) i))).length = 40 := by
    simp
  have hzlen : (List.zipWith (fun c b => if b then upperHexChar c else c) (addrHexChars a)
      ((List.range 40).map (fun i =>
        decide (8 ≤ hashNibble (keccak256 ((addrHexChars a).map Char.toNat)) i)))).length = 40 := by
    rw [List.length_zipWith, addrHexChars_length, hflags]
    omega
  rw [if_pos hzlen]
  unfold hexDigitsToNat
  rw [foldl_hexStep_mask _ _ (by rw [addrHexChars_length, hflags])]
  show List.foldl hexStep (some 0)
      (((beBytes 20 a).map (fun b => [hexDigitChar (b / 16), hexDigitChar (b % 16)])).flatten) = _
  rw [foldl_hexStep_bytePairs _ (mem_beBytes_lt 20 a) 0, foldl_byteAcc_beBytes]
  simp only [Nat.zero_mul, Nat.zero_add]
  rw [Nat.mod_eq_of_lt (by simpa using ha)]

theorem natDecDigitsAux_lt : ∀ f n : Nat, ∀ d ∈ natDecDigitsAux f n, d < 10 := by
  intro f
  induction f with
  | zero => intro n d hd; cases hd
  | succ f ih =>
    intro n d hd
    match n with
    | 0 => cases hd
    | m + 1 =>
      rw [show natDecDigitsAux (f + 1) (m + 1) =
          ((m + 1) % 10) :: natDecDigitsAux f ((m + 1) / 10) from rfl] at hd
      rcases List.mem_cons.mp hd with h | h
      · subst h; exact Nat.mod_lt _ (by norm_num)
      · exact ih _ _ h

theorem ofDigits_natDecDigitsAux : ∀ f n : Nat, n ≤ f →
    Nat.ofDigits 10 (natDecDigitsAux f n) = n := by
  intro f
  induction f with
  | zero =>
    intro n hn
    interval_cases n
    rfl
  | succ f ih =>
    intro n hn
    match n with
    | 0 => rfl
    | m + 1 =>
      rw [show natDecDigitsAux (f + 1) (m + 1) =
          ((m + 1) % 10) :: natDecDigitsAux f ((m + 1) / 10) from rfl]
      have hdiv : (m + 1) / 10 < m + 1 := Nat.div_lt_self (by omega) (by norm_num)
      rw [Nat.ofDigits_cons, ih _ (by omega)]
      have := Nat.div_add_mod (m + 1) 10
      omega

theorem foldl_decStep_render (ds : List Nat) (h : ∀ d ∈ ds, d < 10) : ∀ a : Nat,
    List.foldl decStep (some a) ((ds.map decDigitChar).reverse) =
      some (a * 10 ^ ds.length + Nat.ofDigits 10 ds) := by
  induction ds with
  | nil => intro a; simp [Nat.ofDigits]
  | cons d ds ih =>
    intro a
    have hd : d < 10 := h d (by simp)
    rw [List.map_cons, List.reverse_cons, List.foldl_append,
      ih (fun x hx => h x (by simp [hx])) a, List.foldl_cons, List.foldl_nil]
    rw [show decStep (some (a * 10 ^ ds.length + Nat.ofDigits 10 ds)) (decDigitChar d) =
        some (10 * (a * 10 ^ ds.length + Nat.ofDigits 10 ds) + d) by
      simp [decStep, decDigitVal_decDigitChar _ hd]]
    rw [Nat.ofDigits_cons, List.length_cons, pow_succ]
    congr 1
    ring

theorem decDigitsToNat_natDecStrData (m : Nat) :
    decDigitsToNat (natDecStr m).data = some m := by
  by_cases hm : m = 0
  · subst hm; rfl
  · unfold natDecStr
    rw [if_neg hm]
    show List.foldl decStep (some 0) (((natDecDigits m).map decDigitChar).reverse) = some m
    rw [foldl_decStep_render (natDecDigits m)
      (by simpa [natDecDigits] using natDecDigitsAux_lt m m) 0]
    rw [show Nat.ofDigits 10 (natDecDigits m) = m from ofDigits_natDecDigitsAux m m le_rfl]
    simp

theorem decDigitChar_mem_ne_minus {c : Char} {ds : List Nat}
    (hall : ∀ d ∈ ds, d < 10) (hc : c ∈ ds.map decDigitChar) : ¬(c = '-') := by
  rcases List.mem_map.mp hc with ⟨d, hd, rfl⟩
  have hall10 : ∀ d : Nat, d < 10 → ¬(decDigitChar d = '-') := by decide
  exact hall10 d (hall d hd)

theorem natDecDigits_ne_nil {m : Nat} (hm : m ≠ 0) : natDecDigits m ≠ [] := by
  cases m with
  | zero => exact absurd rfl hm
  | succ k => simp [natDecDigits, natDecDigitsAux]

theorem pyIntDec_natDecStr (m : Nat) : pyIntDec (natDecStr m) = some (m : Int) := by
  by_cases hm : m = 0
  · subst hm; rfl
  · have hdata : (natDecStr m).data = ((natDecDigits m).map decDigitChar).reverse := by
      unfold natDecStr
      rw [if_neg hm]
    have hrevne : ((natDecDigits m).map decDigitChar).reverse ≠ [] := by
      simp only [ne_eq, List.reverse_eq_nil_iff, List.map_eq_nil_iff]
      exact natDecDigits_ne_nil hm
    rcases List.exists_cons_of_ne_nil hrevne with ⟨c, rest, hcons⟩
    have hcmem : c ∈ (natDecDigits m).map decDigitChar := by
      have hmem : c ∈ ((natDecDigits m).map decDigitChar).reverse := by
        rw [hcons]; simp
      simpa using hmem
    have hcm : ¬(c = '-') := decDigitChar_mem_ne_minus
      (by simpa [natDecDigits] using natDecDigitsAux_lt m m) hcmem
    unfold pyIntDec
    rw [hdata, hcons]
    show (if c = '-' then
        (if rest.isEmpty then none else (decDigitsToNat rest).map (fun k => -(k : Int)))
      else (decDigitsToNat (c :: rest)).map (fun k => (k : Int))) = some (m : Int)
    rw [if_neg hcm, ← hcons, ← hdata, decDigitsToNat_natDecStrData]
    rfl

theorem natDecStr_data_ne_nil (m : Nat) : ((natDecStr m).data).isEmpty = false := by
  unfold natDecStr
  split_ifs with h0
  · rfl
  · rcases List.exists_cons_of_ne_nil
      (by simp only [ne_eq, List.reverse_eq_nil_iff, List.map_eq_nil_iff]
          exact natDecDigits_ne_nil h0 :
        ((natDecDigits m).map decDigitChar).reverse ≠ []) with ⟨c, rest, hcons⟩
    show (((natDecDigits m).map decDigitChar).reverse).isEmpty = false
    rw [hcons]
    rfl

theorem pyIntDec_intDecStr (n : Int) : pyIntDec (intDecStr n) = some n := by
  by_cases hn : n < 0
  · unfold intDecStr
    rw [if_pos hn]
    have hdata : ("-" ++ natDecStr n.natAbs).data = '-' :: (natDecStr n.natAbs).data := by
      rw [String.data_append]
      rfl
    unfold pyIntDec
    rw [hdata]
    show (if ('-' : Char) = '-' then
        (if ((natDecStr n.natAbs).data).isEmpty then none
         else (decDigitsToNat ((natDecStr n.natAbs).data)).map (fun k => -(k : Int)))
      else (decDigitsToNat ('-' :: (natDecStr n.natAbs).data)).map (fun k => (k : Int))) =
      some n
    rw [if_pos rfl, natDecStr_data_ne_nil]
    simp only [Bool.false_eq_true, if_false, ite_false]
    rw [decDigitsToNat_natDecStrData]
    show some (-(n.natAbs : Int)) = some n
    congr 1
    omega
  · unfold intDecStr
    rw [if_neg hn, pyIntDec_natDecStr]
    congr 1
    omega

theorem natHexFixed_data_length (k n : Nat) : (natHexFixed k n).data.length = 2 * k := by
  show (((beBytes k n).map
    (fun b => [hexDigitChar (b / 16), hexDigitChar (b % 16)])).flatten).length = 2 * k
  rw [length_bytePairsFlatten, beBytes_length]

theorem pyIntHex_0x (k n : Nat) (hk : 0 < k) (h : n < 2 ^ (8 * k)) :
    pyIntHex ("0x" ++ natHexFixed k n) = some (n : Int) := by
  have hdata : ("0x" ++ natHexFixed k n).data = '0' :: 'x' :: (natHexFixed k n).data := by
    rw [String.data_append]
    rfl
  have hne : ((natHexFixed k n).data).isEmpty = false := by
    cases hd : (natHexFixed k n).data with
    | nil =>
      exfalso
      have := natHexFixed_data_length k n
      rw [hd] at this
      simp at this
      omega
    | cons c rest => rfl
  unfold pyIntHex
  rw [hdata]
  show (if ('0' : Char) = '-' then _ else _) = some (n : Int)
  rw [if_neg (by decide)]
  show (if (stripHexMark ('0' :: 'x' :: (natHexFixed k n).data)).isEmpty then none
      else (hexDigitsToNat (stripHexMark ('0' :: 'x' :: (natHexFixed k n).data))).map
        (fun n => (n : Int))) = some (n : Int)
  rw [show stripHexMark ('0' :: 'x' :: (natHexFixed k n).data) = (natHexFixed k n).data
    from rfl]
  rw [hne]
  simp only [Bool.false_eq_true, if_false, ite_false]
  rw [hexDigitsToNat_natHexFixedData, Nat.mod_eq_of_lt h]
  rfl

/-! ## Structural lemmas about the verifier -/

theorem idealRecover_v {d : List Nat} {v : Int} {r s a : Nat}
    (h : idealRecover d v r s = some a) :
    v = 0 ∨ v = 1 ∨ v = 27 ∨ v = 28 ∨ 35 ≤ v := by
  unfold idealRecover at h
  split_ifs at h with h1 h2 h3
  all_goals first | exact h1 | exact absurd h (by simp)

/-- Shape of every signature-check result: success is `(true, none)`,
every failure carries a reason string. -/
theorem verifyEip3009Sig_shape (p : ExactPaymentPayloadT) (req : PaymentRequirementsT)
    (fromA : Nat) :
    verifyEip3009Sig p req fromA = (true, none) ∨
      ∃ s, verifyEip3009Sig p req fromA = (false, some s) := by
  unfold verifyEip3009Sig
  repeat' split
  all_goals first
    | (left; rfl)
    | (right; exact ⟨_, rfl⟩)

theorem verifyEip3009Sig_true_v {p : ExactPaymentPayloadT} {req : PaymentRequirementsT}
    {fromA : Nat} (h : (verifyEip3009Sig p req fromA).1 = true) :
    (p.v = 0 ∨ p.v = 1 ∨ p.v = 27 ∨ p.v = 28 ∨ 35 ≤ p.v) ∧ 0 ≤ p.v ∧ p.v < 256 := by
  unfold verifyEip3009Sig at h
  repeat' split at h
  all_goals first
    | exact ⟨idealRecover_v ‹_›, by omega⟩
    | simp at h

theorem sigStage_shape (p : ExactPaymentPayloadT) (req : PaymentRequirementsT)
    (fromA : Nat) :
    sigStage p req fromA = (true, none) ∨
      ∃ s, sigStage p req fromA = (false, some s) := by
  unfold sigStage
  rcases verifyEip3009Sig_shape p req fromA with h | ⟨s, h⟩ <;> rw [h] <;> simp

theorem sigStage_true_v {p : ExactPaymentPayloadT} {req : PaymentRequirementsT}
    {fromA : Nat} (h : (sigStage p req fromA).1 = true) :
    (p.v = 0 ∨ p.v = 1 ∨ p.v = 27 ∨ p.v = 28 ∨ 35 ≤ p.v) ∧ 0 ≤ p.v ∧ p.v < 256 := by
  rcases verifyEip3009Sig_shape p req fromA with hs | ⟨s, hs⟩
  · exact verifyEip3009Sig_true_v (by rw [hs])
  · exfalso
    unfold sigStage at h
    rw [hs] at h
    simp at h

theorem windowStage_shape (p : ExactPaymentPayloadT) (req : PaymentRequirementsT)
    (now : Int) (fromA : Nat) :
    windowStage p req now fromA = (true, none) ∨
      ∃ s, windowStage p req now fromA = (false, some s) := by
  unfold windowStage
  repeat' split
  all_goals first
    | exact sigStage_shape p req fromA
    | (right; exact ⟨_, rfl⟩)

theorem windowStage_true_v {p : ExactPaymentPayloadT} {req : PaymentRequirementsT}
    {now : Int} {fromA : Nat} (h : (windowStage p req now fromA).1 = true) :
    (p.v = 0 ∨ p.v = 1 ∨ p.v = 27 ∨ p.v = 28 ∨ 35 ≤ p.v) ∧ 0 ≤ p.v ∧ p.v < 256 := by
  unfold windowStage at h
  repeat' split at h
  all_goals first
    | exact sigStage_true_v h
    | simp at h

theorem verifyExactScheme_shape (d : List (String × JVal)) (req : PaymentRequirementsT)
    (now : Int) :
    verifyExactScheme d req now = (true, none) ∨
      ∃ s, verifyExactScheme d req now = (false, some s) := by
  unfold verifyExactScheme
  repeat' split
  all_goals first
    | exact windowStage_shape _ _ _ _
    | (right; exact ⟨_, rfl⟩)

/-- Inversion of a successful exact-scheme verification: the payload
decoded, the addresses parsed, the recipient matched, the amount strings
were equal and the signature's `v` was one the recovery accepts
(`to_standard_v` does not raise) and fit in a byte. -/
theorem verifyExactScheme_true {d : List (String × JVal)} {req : PaymentRequirementsT}
    {now : Int} (h : (verifyExactScheme d req now).1 = true) :
    ∃ p fromA toA, validateExactPayload d = some p ∧
      parseAddress p.from_ = some fromA ∧ parseAddress p.to_ = some toA ∧
      parseAddress req.payTo = some toA ∧
      p.value = req.maxAmountRequired ∧
      ((p.v = 0 ∨ p.v = 1 ∨ p.v = 27 ∨ p.v = 28 ∨ 35 ≤ p.v) ∧ 0 ≤ p.v ∧ p.v < 256) := by
  unfold verifyExactScheme at h
  cases hval : validateExactPayload d with
  | none => simp only [hval] at h; exact absurd h (by simp)
  | some p =>
    simp only [hval] at h
    cases hf : parseAddress p.from_ with
    | none => simp only [hf] at h; exact absurd h (by simp)
    | some fromA =>
      cases ht : parseAddress p.to_ with
      | none => simp only [hf, ht] at h; exact absurd h (by simp)
      | some toA =>
        cases hp : parseAddress req.payTo with
        | none => simp only [hf, ht, hp] at h; exact absurd h (by simp)
        | some reqToA =>
          simp only [hf, ht, hp] at h
          by_cases h1 : toA ≠ reqToA
          · rw [if_pos h1] at h; exact absurd h (by simp)
          · rw [if_neg h1] at h
            by_cases h2 : p.value ≠ req.maxAmountRequired
            · rw [if_pos h2] at h; exact absurd h (by simp)
            · rw [if_neg h2] at h
              push_neg at h1 h2
              subst h1
              exact ⟨p, fromA, toA, rfl, hf, ht, rfl, h2, windowStage_true_v h⟩

theorem verifyPayment_shape (header : String) (req : PaymentRequirementsT) (now : Int) :
    verifyPayment header req now = (true, none) ∨
      ∃ s, verifyPayment header req now = (false, some s) := by
  unfold verifyPayment
  repeat' split
  all_goals first
    | exact verifyExactScheme_shape _ _ _
    | (right; exact ⟨_, rfl⟩)

/-- Inversion of a successful `verify_payment`: the header parsed and
the exact-scheme verification succeeded on the decoded payload. -/
theorem verifyPayment_true {header : String} {req : PaymentRequirementsT} {now : Int}
    (h : (verifyPayment header req now).1 = true) :
    ∃ pp, parsePaymentHeader header = some pp ∧
      (verifyExactScheme pp.payload req now).1 = true := by
  unfold verifyPayment at h
  cases hb : b64decode header with
  | none => simp only [hb] at h; exact absurd h (by simp)
  | some bytes =>
    simp only [hb] at h
    cases hrest : (asciiDecode bytes).bind
        (fun txt => (jsonParse txt).bind validatePaymentPayload) with
    | none => simp only [hrest] at h; exact absurd h (by simp)
    | some pp =>
      simp only [hrest] at h
      have hparse : parsePaymentHeader header = some pp := by
        unfold parsePaymentHeader
        rw [hb]
        simpa using hrest
      by_cases h1 : pp.x402Version ≠ 1
      · rw [if_pos h1] at h; exact absurd h (by simp)
      · rw [if_neg h1] at h
        by_cases h2 : pp.scheme ≠ req.scheme
        · rw [if_pos h2] at h; exact absurd h (by simp)
        · rw [if_neg h2] at h
          by_cases h3 : pp.network ≠ req.network
          · rw [if_pos h3] at h; exact absurd h (by simp)
          · rw [if_neg h3] at h
            by_cases h4 : pp.scheme = "exact"
            · rw [if_pos h4] at h; exact ⟨pp, hparse, h⟩
            · rw [if_neg h4] at h; exact absurd h (by simp)

/-- Reduction of `verify_payment` to the exact-scheme check when the
header parses and the envelope checks pass. -/
theorem verifyPayment_exact {header : String} {req : PaymentRequirementsT} {now : Int}
    {pp : PaymentPayloadT}
    (hparse : parsePaymentHeader header = some pp)
    (hv : pp.x402Version = 1) (hs : pp.scheme = "exact") (hrs : req.scheme = "exact")
    (hn : pp.network = req.network) :
    verifyPayment header req now = verifyExactScheme pp.payload req now := by
  have hsplit : ∃ bytes, b64decode header = some bytes ∧
      (asciiDecode bytes).bind (fun txt => (jsonParse txt).bind validatePaymentPayload) =
        some pp := by
    unfold parsePaymentHeader at hparse
    cases hb : b64decode header with
    | none => rw [hb] at hparse; simp at hparse
    | some bytes =>
      rw [hb] at hparse
      exact ⟨bytes, rfl, by simpa using hparse⟩
  rcases hsplit with ⟨bytes, hb, hrest⟩
  unfold verifyPayment
  simp only [hb, hrest]
  rw [if_neg (by simp [hv]), if_neg (by simp [hs, hrs]), if_neg (by simp [hn]),
    if_pos hs]

/-- Reduction of the exact-scheme check to the amount comparison when
the payload decodes, the addresses parse and the recipient matches. -/
theorem verifyExactScheme_amount {d : List (String × JVal)} {req : PaymentRequirementsT}
    {now : Int} {p : ExactPaymentPayloadT} {fromA toA : Nat}
    (hdec : validateExactPayload d = some p)
    (hf : parseAddress p.from_ = some fromA)
    (ht : parseAddress p.to_ = some toA)
    (hp : parseAddress req.payTo = some toA) :
    verifyExactScheme d req now =
      if p.value ≠ req.maxAmountRequired then
        (false, some ("Amount mismatch: expected " ++ req.maxAmountRequired ++
          ", got " ++ p.value))
      else windowStage p req now fromA := by
  unfold verifyExactScheme
  simp only [hdec, hf, ht, hp]
  rw [if_neg (by simp)]

/-- Reduction of the window stage to its two boundary comparisons when
both window strings parse. -/
theorem windowStage_parsed {p : ExactPaymentPayloadT} {req : PaymentRequirementsT}
    {now : Int} {fromA : Nat} {va vb : Int}
    (hva : pyIntDec p.validAfter = some va) (hvb : pyIntDec p.validBefore = some vb) :
    windowStage p req now fromA =
      if now < va then
        (false, some ("Payment not yet valid: current time " ++ intDecStr now ++
          " < validAfter " ++ intDecStr va))
      else if vb < now then
        (false, some ("Payment expired: current time " ++ intDecStr now ++
          " > validBefore " ++ intDecStr vb))
      else sigStage p req fromA := by
  unfold windowStage
  simp only [hva, hvb]

/-! ## Keccak output bounds and digest congruence -/

theorem keccak256_byte_lt (m : List Nat) : ∀ b ∈ keccak256 m, b < 256 := by
  intro b hb
  unfold keccak256 at hb
  simp only [List.mem_map, List.mem_range] at hb
  obtain ⟨i, _, rfl⟩ := hb
  exact Nat.mod_lt _ (by norm_num)

theorem keccak256_length (m : List Nat) : (keccak256 m).length = 32 := by
  unfold keccak256
  simp

theorem foldl_byteAcc_lt (bs : List Nat) : ∀ a : Nat, (∀ b ∈ bs, b < 256) →
    List.foldl (fun acc b => acc * 256 + b) a bs < (a + 1) * 2 ^ (8 * bs.length) := by
  induction bs with
  | nil => intro a _; simp
  | cons b bs ih =>
    intro a h
    have hb : b < 256 := h b (by simp)
    rw [List.foldl_cons]
    have hih := ih (a * 256 + b) (fun x hx => h x (by simp [hx]))
    calc List.foldl (fun acc b => acc * 256 + b) (a * 256 + b) bs
        < (a * 256 + b + 1) * 2 ^ (8 * bs.length) := hih
      _ ≤ ((a + 1) * 256) * 2 ^ (8 * bs.length) :=
          Nat.mul_le_mul_right _ (by omega)
      _ = (a + 1) * 2 ^ (8 * (b :: bs).length) := by
          rw [List.length_cons, show 8 * (bs.length + 1) = 8 * bs.length + 8 by ring,
            pow_add]
          norm_num
          ring

theorem bytesToNat_keccak_lt (m : List Nat) : bytesToNat (keccak256 m) < 2 ^ 256 := by
  have h := foldl_byteAcc_lt (keccak256 m) 0 (keccak256_byte_lt m)
  rw [keccak256_length] at h
  unfold bytesToNat
  simpa using h

theorem enc712Addr_checksum {s : String} {a : Nat} (h : parseAddress s = some a) :
    enc712Addr (checksumRender a) = enc712Addr s := by
  unfold enc712Addr
  rw [h, parseAddress_checksumRender a (parseAddress_lt h)]

/-- The digest depends on the `verifyingContract` string only through
its parsed address bytes. -/
theorem typedDataDigest_vc_congr {vc1 vc2 : String}
    (h : enc712Addr vc1 = enc712Addr vc2)
    (name version : String) (chainId : Int) (fromS toS : String)
    (value va vb : Int) (nonce : String) :
    typedDataDigest name version chainId vc1 fromS toS value va vb nonce =
      typedDataDigest name version chainId vc2 fromS toS value va vb nonce := by
  unfold typedDataDigest hashStructDomain
  rw [h]

/-- A payload carrying the client's typed-data signature over the
`[va, vb]` window but an arbitrary `v` the library can normalize
(`to_standard_v` accepts it and it fits in a byte) passes the verifier's
signature check: the digest matches and recovery returns the payer. -/
theorem sigCheck_vNormalized
    (req : PaymentRequirementsT) (va vb : Int) (nonce : String)
    (extra : List (String × String)) (name version : String)
    (chainId value : Int) (fromA toA vcA : Nat) (nb : List Nat) (v' : Int)
    (hex : req.extra = some extra)
    (hname : sLookup extra "name" = some name)
    (hver : sLookup extra "version" = some version)
    (hnamene : name ≠ "") (hverne : version ≠ "")
    (hcid : parseChainId req.network = some chainId)
    (hcid0 : 0 ≤ chainId) (hcid1 : chainId < (2 : Int) ^ 256)
    (hasset : parseAddress req.asset = some vcA)
    (hval : pyIntDec req.maxAmountRequired = some value)
    (hval0 : 0 ≤ value) (hval1 : value < (2 : Int) ^ 256)
    (hva0 : 0 ≤ va) (hva1 : va < (2 : Int) ^ 256)
    (hvb0 : 0 ≤ vb) (hvb1 : vb < (2 : Int) ^ 256)
    (hnonce : enc712Bytes32 nonce = some nb)
    (hfromA : fromA < 2 ^ 160) (htoA : toA < 2 ^ 160)
    (hv5 : v' = 0 ∨ v' = 1 ∨ v' = 27 ∨ v' = 28 ∨ 35 ≤ v')
    (hvlo : 0 ≤ v') (hvhi : v' < 256) :
    ∃ s, verifyEip3009Sig
        ⟨checksumRender fromA, checksumRender toA, req.maxAmountRequired,
          intDecStr va, intDecStr vb, nonce, v',
          "0x" ++ natHexFixed 32 fromA, s⟩ req fromA = (true, none) := by
  have hvcA : vcA < 2 ^ 160 := parseAddress_lt hasset
  have hextrane : extra.isEmpty = false := by
    cases extra with
    | nil => exact absurd hname (by simp [sLookup])
    | cons a l => rfl
  have hDc0 : typedDataDigest name version chainId (checksumRender vcA)
      (checksumRender fromA) (checksumRender toA) value va vb nonce =
        some (keccak256 (0x19 :: 0x01 ::
          (keccak256 (keccak256 (strBytes domainTypeString) ++
              keccak256 (strBytes name) ++ keccak256 (strBytes version) ++
              beBytes 32 chainId.toNat ++ beBytes 32 vcA) ++
            keccak256 (keccak256 (strBytes twaTypeString) ++
              beBytes 32 fromA ++ beBytes 32 toA ++ beBytes 32 value.toNat ++
              beBytes 32 va.toNat ++ beBytes 32 vb.toNat ++ nb)))) := by
    unfold typedDataDigest hashStructDomain hashStructTwa enc712Uint enc712Addr
    rw [parseAddress_checksumRender vcA hvcA, parseAddress_checksumRender fromA hfromA,
      parseAddress_checksumRender toA htoA,
      if_pos (show 0 ≤ chainId ∧ chainId < (2 : Int) ^ 256 from ⟨hcid0, hcid1⟩),
      if_pos (show 0 ≤ value ∧ value < (2 : Int) ^ 256 from ⟨hval0, hval1⟩),
      if_pos (show 0 ≤ va ∧ va < (2 : Int) ^ 256 from ⟨hva0, hva1⟩),
      if_pos (show 0 ≤ vb ∧ vb < (2 : Int) ^ 256 from ⟨hvb0, hvb1⟩),
      hnonce]
    rfl
  obtain ⟨K, hDc, hKlt⟩ :
      ∃ K, typedDataDigest name version chainId (checksumRender vcA)
        (checksumRender fromA) (checksumRender toA) value va vb nonce =
          some K ∧ bytesToNat K < 2 ^ 256 :=
    ⟨_, hDc0, bytesToNat_keccak_lt _⟩
  have hDv : typedDataDigest name version chainId req.asset (checksumRender fromA)
      (checksumRender toA) value va vb nonce = some K := by
    rw [← typedDataDigest_vc_congr (enc712Addr_checksum hasset)]
    exact hDc
  have hr : pyIntHex ("0x" ++ natHexFixed 32 fromA) = some (fromA : Int) :=
    pyIntHex_0x 32 fromA (by norm_num)
      (lt_of_lt_of_le hfromA (by norm_num))
  have hsv : pyIntHex ("0x" ++ natHexFixed 32 (bytesToNat K)) =
      some ((bytesToNat K : Nat) : Int) :=
    pyIntHex_0x 32 _ (by norm_num) (by simpa using hKlt)
  refine ⟨"0x" ++ natHexFixed 32 (bytesToNat K), ?_⟩
  unfold verifyEip3009Sig
  rw [hex]
  simp only [hextrane, Bool.false_eq_true, if_false, ite_false, hname, hver]
  rw [if_neg (by simp [hnamene, hverne])]
  simp only [hcid, hval, pyIntDec_intDecStr, hDv, hr, hsv]
  have hrange : ¬((fromA : Int) < 0 ∨ (2 : Int) ^ 256 ≤ (fromA : Int) ∨
      ((bytesToNat K : Nat) : Int) < 0 ∨
      (2 : Int) ^ 256 ≤ ((bytesToNat K : Nat) : Int)) := by
    push_neg
    refine ⟨Int.natCast_nonneg _, ?_, Int.natCast_nonneg _, ?_⟩
    · exact_mod_cast lt_of_lt_of_le hfromA (by norm_num)
    · exact_mod_cast hKlt
  rw [if_neg hrange, if_neg (by omega)]
  unfold idealRecover
  rw [if_pos hv5]
  simp only [Int.toNat_natCast]
  rw [if_pos trivial, if_pos hfromA]
  simp

/-! ## Claim statements -/

/-- C1: for every typed-data input (domain name and version, chain id
from the network string, verifying contract, payer, recipient, value,
window and nonce, all within their wire ranges), the client's
`_create_exact_payment` and the verifier's `_verify_eip3009_signature`
construct the same EIP-712 digest byte for byte — the client checksums
the addresses while the verifier feeds the wire strings and the raw
`asset`, and the encoding agrees on all of them — and hence the payload
the client emits recovers to the client's address under the verifier's
recovery, which accepts it. -/
theorem client_verifier_digest_agreement
    (accountAddress : String) (req : PaymentRequirementsT) (dur now : Int)
    (nonce : String) (extra : List (String × String)) (name version : String)
    (chainId value : Int) (fromA toA vcA : Nat) (nb : List Nat)
    (hex : req.extra = some extra)
    (hname : sLookup extra "name" = some name)
    (hver : sLookup extra "version" = some version)
    (hnamene : name ≠ "") (hverne : version ≠ "")
    (hcid : parseChainId req.network = some chainId)
    (hcid0 : 0 ≤ chainId) (hcid1 : chainId < (2 : Int) ^ 256)
    (hacct : parseAddress accountAddress = some fromA)
    (hpay : parseAddress req.payTo = some toA)
    (hasset : parseAddress req.asset = some vcA)
    (hval : pyIntDec req.maxAmountRequired = some value)
    (hval0 : 0 ≤ value) (hval1 : value < (2 : Int) ^ 256)
    (hva0 : 0 ≤ now - 10) (hva1 : now - 10 < (2 : Int) ^ 256)
    (hvb0 : 0 ≤ now + dur) (hvb1 : now + dur < (2 : Int) ^ 256)
    (hnonce : enc712Bytes32 nonce = some nb) :
    ∃ p digest,
      createExactPayment accountAddress req dur now nonce = some p ∧
      clientSigningDigest accountAddress req dur now nonce = some digest ∧
      verifierDigest p req = some digest ∧
      parseAddress p.from_ = some fromA ∧
      verifyEip3009Sig p req fromA = (true, none) := by
  have hfromA : fromA < 2 ^ 160 := parseAddress_lt hacct
  have htoA : toA < 2 ^ 160 := parseAddress_lt hpay
  have hvcA : vcA < 2 ^ 160 := parseAddress_lt hasset
  have hextrane : extra.isEmpty = false := by
    cases extra with
    | nil => exact absurd hname (by simp [sLookup])
    | cons a l => rfl
  have hDc0 : typedDataDigest name version chainId (checksumRender vcA)
      (checksumRender fromA) (checksumRender toA) value (now - 10) (now + dur) nonce =
        some (keccak256 (0x19 :: 0x01 ::
          (keccak256 (keccak256 (strBytes domainTypeString) ++
              keccak256 (strBytes name) ++ keccak256 (strBytes version) ++
              beBytes 32 chainId.toNat ++ beBytes 32 vcA) ++
            keccak256 (keccak256 (strBytes twaTypeString) ++
              beBytes 32 fromA ++ beBytes 32 toA ++ beBytes 32 value.toNat ++
              beBytes 32 (now - 10).toNat ++ beBytes 32 (now + dur).toNat ++ nb)))) := by
    unfold typedDataDigest hashStructDomain hashStructTwa enc712Uint enc712Addr
    rw [parseAddress_checksumRender vcA hvcA, parseAddress_checksumRender fromA hfromA,
      parseAddress_checksumRender toA htoA,
      if_pos (show 0 ≤ chainId ∧ chainId < (2 : Int) ^ 256 from ⟨hcid0, hcid1⟩),
      if_pos (show 0 ≤ value ∧ value < (2 : Int) ^ 256 from ⟨hval0, hval1⟩),
      if_pos (show 0 ≤ now - 10 ∧ now - 10 < (2 : Int) ^ 256 from ⟨hva0, hva1⟩),
      if_pos (show 0 ≤ now + dur ∧ now + dur < (2 : Int) ^ 256 from ⟨hvb0, hvb1⟩),
      hnonce]
    rfl
  obtain ⟨K, hDc, hKlt⟩ :
      ∃ K, typedDataDigest name version chainId (checksumRender vcA)
        (checksumRender fromA) (checksumRender toA) value (now - 10) (now + dur) nonce =
          some K ∧ bytesToNat K < 2 ^ 256 :=
    ⟨_, hDc0, bytesToNat_keccak_lt _⟩
  have hDv : typedDataDigest name version chainId req.asset (checksumRender fromA)
      (checksumRender toA) value (now - 10) (now + dur) nonce = some K := by
    rw [← typedDataDigest_vc_congr (enc712Addr_checksum hasset)]
    exact hDc
  have hcreate : createExactPayment accountAddress req dur now nonce =
      some ⟨checksumRender fromA, checksumRender toA, req.maxAmountRequired,
        intDecStr (now - 10), intDecStr (now + dur), nonce, 27,
        "0x" ++ natHexFixed 32 fromA, "0x" ++ natHexFixed 32 (bytesToNat K)⟩ := by
    unfold createExactPayment
    rw [hex]
    simp only [hextrane, Bool.false_eq_true, if_false, ite_false, hname, hver]
    rw [if_neg (by simp [hnamene, hverne])]
    simp only [hcid, hacct, hpay, hasset, hval, hDc]
    rfl
  have hr : pyIntHex ("0x" ++ natHexFixed 32 fromA) = some (fromA : Int) :=
    pyIntHex_0x 32 fromA (by norm_num)
      (lt_of_lt_of_le hfromA (by norm_num))
  have hsv : pyIntHex ("0x" ++ natHexFixed 32 (bytesToNat K)) =
      some ((bytesToNat K : Nat) : Int) :=
    pyIntHex_0x 32 _ (by norm_num) (by simpa using hKlt)
  refine ⟨_, K, hcreate, ?_, ?_, parseAddress_checksumRender fromA hfromA, ?_⟩
  · unfold clientSigningDigest
    rw [hex]
    simp only [hextrane, Bool.false_eq_true, if_false, ite_false, hname, hver]
    rw [if_neg (by simp [hnamene, hverne])]
    simp only [hcid, hacct, hpay, hasset, hval]
    exact hDc
  · unfold verifierDigest
    rw [hex]
    simp only [hextrane, Bool.false_eq_true, if_false, ite_false, hname, hver]
    rw [if_neg (by simp [hnamene, hverne])]
    simp only [hcid, hval, pyIntDec_intDecStr]
    exact hDv
  · unfold verifyEip3009Sig
    rw [hex]
    simp only [hextrane, Bool.false_eq_true, if_false, ite_false, hname, hver]
    rw [if_neg (by simp [hnamene, hverne])]
    simp only [hcid, hval, pyIntDec_intDecStr, hDv, hr, hsv]
    have hrange : ¬((fromA : Int) < 0 ∨ (2 : Int) ^ 256 ≤ (fromA : Int) ∨
        ((bytesToNat K : Nat) : Int) < 0 ∨
        (2 : Int) ^ 256 ≤ ((bytesToNat K : Nat) : Int)) := by
      push_neg
      refine ⟨Int.natCast_nonneg _, ?_, Int.natCast_nonneg _, ?_⟩
      · exact_mod_cast lt_of_lt_of_le hfromA (by norm_num)
      · exact_mod_cast hKlt
    rw [if_neg hrange, if_neg (by decide)]
    unfold idealRecover
    rw [if_pos (show (27 : Int) = 0 ∨ (27 : Int) = 1 ∨ (27 : Int) = 27 ∨ (27 : Int) = 28 ∨
      (35 : Int) ≤ 27 by decide)]
    simp only [Int.toNat_natCast]
    rw [if_pos trivial, if_pos hfromA]
    simp

/-- C1 witness: with the demo account, `rqW` and the demo nonce, the
client-built payload verifies: both digests agree and recovery returns
the client's address. -/
theorem client_verifier_digest_agreement_witness :
    ∃ p digest,
      createExactPayment "0x1111111111111111111111111111111111111111" rqW 300 1000
        demoNonce = some p ∧
      clientSigningDigest "0x1111111111111111111111111111111111111111" rqW 300 1000
        demoNonce = some digest ∧
      verifierDigest p rqW = some digest ∧
      parseAddress p.from_ = some 0x1111111111111111111111111111111111111111 ∧
      verifyEip3009Sig p rqW 0x1111111111111111111111111111111111111111 = (true, none) :=
  client_verifier_digest_agreement
    "0x1111111111111111111111111111111111111111" rqW 300 1000 demoNonce
    [("name", "USDC"), ("version", "2")] "USDC" "2" 84532 10000
    0x1111111111111111111111111111111111111111
    0x2222222222222222222222222222222222222222
    0x3333333333333333333333333333333333333333
    (List.replicate 32 0x11)
    (by rfl) (by rfl) (by rfl) (by decide) (by decide) (by rfl) (by decide) (by decide)
    (by rfl) (by rfl) (by rfl) (by rfl) (by decide) (by decide) (by decide) (by decide)
    (by decide) (by decide) (by rfl)

/-- C2: for an exact-scheme payload that passes the envelope, address
and recipient checks, a `value` differing from
`requirements.maxAmountRequired` (in either direction) makes
`verify_payment` return `isValid = false` with exactly the reason
`"Amount mismatch: expected <required>, got <value>"`; a zero `value`
passes the amount gate (continuing to the window stage) when
`maxAmountRequired` is `"0"`, and only then. -/
theorem verify_amount_exact_match
    (header : String) (req : PaymentRequirementsT) (now : Int)
    (pp : PaymentPayloadT) (p : ExactPaymentPayloadT) (fromA toA : Nat)
    (hparse : parsePaymentHeader header = some pp)
    (hv : pp.x402Version = 1) (hs : pp.scheme = "exact") (hrs : req.scheme = "exact")
    (hn : pp.network = req.network)
    (hdec : validateExactPayload pp.payload = some p)
    (hf : parseAddress p.from_ = some fromA)
    (ht : parseAddress p.to_ = some toA)
    (hp : parseAddress req.payTo = some toA) :
    (p.value ≠ req.maxAmountRequired →
      verifyPayment header req now =
        (false, some ("Amount mismatch: expected " ++ req.maxAmountRequired ++
          ", got " ++ p.value)))
    ∧ (p.value = "0" → req.maxAmountRequired = "0" →
      verifyPayment header req now = windowStage p req now fromA)
    ∧ (p.value = "0" → req.maxAmountRequired ≠ "0" →
      verifyPayment header req now =
        (false, some ("Amount mismatch: expected " ++ req.maxAmountRequired ++
          ", got " ++ p.value))) := by
  have hred : verifyPayment header req now =
      if p.value ≠ req.maxAmountRequired then
        (false, some ("Amount mismatch: expected " ++ req.maxAmountRequired ++
          ", got " ++ p.value))
      else windowStage p req now fromA := by
    rw [verifyPayment_exact hparse hv hs hrs hn, verifyExactScheme_amount hdec hf ht hp]
  refine ⟨fun hne => ?_, fun hz hrz => ?_, fun hz hrz => ?_⟩
  · rw [hred, if_pos hne]
  · rw [hred, if_neg (by simp [hz, hrz])]
  · have hne : p.value ≠ req.maxAmountRequired := by
      rw [hz]
      exact fun hc => hrz hc.symm
    rw [hred, if_pos hne]

/-- C2 witness: the underpaying header (`value = "9999"` against
`"10000"`) is rejected with the exact amount-mismatch reason. -/
theorem verify_amount_exact_match_witness :
    verifyPayment hdrUnderpay rqW 1000 =
      (false, some "Amount mismatch: expected 10000, got 9999") := by
  have h := (verify_amount_exact_match hdrUnderpay rqW 1000
      ⟨1, "exact", "eip155:84532", demoDict "9999" "990" "1300" demoNonce 27⟩
      (demoPayload "9999" "990" "1300" demoNonce 27)
      0x1111111111111111111111111111111111111111
      0x2222222222222222222222222222222222222222
      (by rfl) (by rfl) (by rfl) (by rfl) (by rfl) (by rfl)
      (by rfl) (by rfl) (by rfl)).1 (by decide)
  exact h

/-- C3: for an exact-scheme payload that passes every check up to the
amount, the time-window check accepts exactly when
`validAfter ≤ now ≤ validBefore` (both boundaries accepted, continuing
to the signature stage); `now < validAfter` yields the
`"Payment not yet valid"` reason and `now > validBefore` the
`"Payment expired"` reason. -/
theorem verify_time_window
    (header : String) (req : PaymentRequirementsT) (now : Int)
    (pp : PaymentPayloadT) (p : ExactPaymentPayloadT) (fromA toA : Nat) (va vb : Int)
    (hparse : parsePaymentHeader header = some pp)
    (hv : pp.x402Version = 1) (hs : pp.scheme = "exact") (hrs : req.scheme = "exact")
    (hn : pp.network = req.network)
    (hdec : validateExactPayload pp.payload = some p)
    (hf : parseAddress p.from_ = some fromA)
    (ht : parseAddress p.to_ = some toA)
    (hp : parseAddress req.payTo = some toA)
    (heq : p.value = req.maxAmountRequired)
    (hva : pyIntDec p.validAfter = some va)
    (hvb : pyIntDec p.validBefore = some vb) :
    (now < va →
      verifyPayment header req now =
        (false, some ("Payment not yet valid: current time " ++ intDecStr now ++
          " < validAfter " ++ intDecStr va)))
    ∧ (va ≤ now → vb < now →
      verifyPayment header req now =
        (false, some ("Payment expired: current time " ++ intDecStr now ++
          " > validBefore " ++ intDecStr vb)))
    ∧ (va ≤ now → now ≤ vb →
      verifyPayment header req now = sigStage p req fromA) := by
  have hred : verifyPayment header req now = windowStage p req now fromA := by
    rw [verifyPayment_exact hparse hv hs hrs hn, verifyExactScheme_amount hdec hf ht hp,
      if_neg (by simp [heq])]
  rw [hred, windowStage_parsed hva hvb]
  refine ⟨fun h1 => ?_, fun h1 h2 => ?_, fun h1 h2 => ?_⟩
  · rw [if_pos h1]
  · rw [if_neg (by omega), if_pos h2]
  · rw [if_neg (by omega), if_neg (by omega)]

/-- C3 witness: at chain time `1000`, a window opening at `2000` is
rejected as not yet valid with the exact reason string. -/
theorem verify_time_window_witness :
    verifyPayment hdrNotYet rqW 1000 =
      (false, some "Payment not yet valid: current time 1000 < validAfter 2000") := by
  have h := (verify_time_window hdrNotYet rqW 1000
      ⟨1, "exact", "eip155:84532", demoDict "10000" "2000" "1300" demoNonce 27⟩
      (demoPayload "10000" "2000" "1300" demoNonce 27)
      0x1111111111111111111111111111111111111111
      0x2222222222222222222222222222222222222222
      2000 1300
      (by rfl) (by rfl) (by rfl) (by rfl) (by rfl) (by rfl)
      (by rfl) (by rfl) (by rfl) (by rfl) (by rfl) (by rfl)).1 (by decide)
  exact h

/-- C7 counterexample: the claimed rejection of every `v` outside
`{27, 28}` does not hold.  A payload identical to a valid payment
except for `v = 0` — its `r` carries the payer and its `s` the
payload's EIP-712 digest — decodes as a well-formed
`ExactPaymentPayload` and passes the entire exact-scheme verification
(recipient, amount, window and signature): `recover_message` normalizes
`v = 0` via `to_standard_v` instead of raising, recovery succeeds on
the same digest, and `verify_payment` returns `_verify_exact_scheme`'s
result verbatim. -/
theorem v_zero_accepted_counterexample :
    ∃ d p, validateExactPayload d = some p ∧ p.v = 0 ∧
      verifyExactScheme d rqW 1000 = (true, none) := by
  obtain ⟨s, hsig⟩ := sigCheck_vNormalized rqW 990 1300 demoNonce
    [("name", "USDC"), ("version", "2")] "USDC" "2" 84532 10000
    0x1111111111111111111111111111111111111111
    0x2222222222222222222222222222222222222222
    0x3333333333333333333333333333333333333333
    (List.replicate 32 0x11) 0
    (by rfl) (by rfl) (by rfl) (by decide) (by decide) (by rfl) (by decide) (by decide)
    (by rfl) (by rfl) (by decide) (by decide) (by decide) (by decide) (by decide)
    (by decide) (by rfl) (by decide) (by decide) (by decide) (by decide) (by decide)
  refine ⟨dictV0 s, payloadV0 s, rfl, rfl, ?_⟩
  unfold verifyExactScheme
  have hvp : validateExactPayload (dictV0 s) = some (payloadV0 s) := rfl
  have hp : parseAddress rqW.payTo =
      some 0x2222222222222222222222222222222222222222 := by decide
  simp only [hvp, payloadV0,
    parseAddress_checksumRender 0x1111111111111111111111111111111111111111 (by decide),
    parseAddress_checksumRender 0x2222222222222222222222222222222222222222 (by decide),
    hp]
  rw [if_neg (by decide), if_neg (by simp)]
  unfold windowStage
  simp only [pyIntDec_intDecStr]
  rw [if_neg (by decide), if_neg (by decide)]
  unfold sigStage
  rw [hsig]
  rfl

/-- C7 (amended): `v` values the library cannot normalize are rejected:
`bytes([v])` raises outside `0..255`, and `to_standard_v` raises for
everything in range except `{0, 1, 27, 28}` and `35` upward, so for
every payload whose `v` lies outside `{0, 1, 27, 28} ∪ [35, 255]`,
`verify_payment` returns `isValid = false`. -/
theorem verify_v_unrecoverable_rejected
    (header : String) (req : PaymentRequirementsT) (now : Int)
    (pp : PaymentPayloadT) (p : ExactPaymentPayloadT)
    (hparse : parsePaymentHeader header = some pp)
    (hdec : validateExactPayload pp.payload = some p)
    (hv : ¬(p.v = 0 ∨ p.v = 1 ∨ p.v = 27 ∨ p.v = 28 ∨ (35 ≤ p.v ∧ p.v ≤ 255))) :
    (verifyPayment header req now).1 = false := by
  by_contra hc
  rw [Bool.not_eq_false] at hc
  obtain ⟨pp2, hparse2, hves⟩ := verifyPayment_true hc
  rw [hparse] at hparse2
  obtain rfl : pp = pp2 := by injection hparse2
  obtain ⟨p2, fromA, toA, hdec2, _, _, _, _, hvv⟩ := verifyExactScheme_true hves
  rw [hdec] at hdec2
  obtain rfl : p = p2 := by injection hdec2
  obtain ⟨h5, h0, h256⟩ := hvv
  exact hv (by omega)

/-- C7 amended witness: the header with `v = 29`, otherwise valid, is
rejected. -/
theorem verify_v_unrecoverable_rejected_witness :
    (verifyPayment hdrBadV rqW 1000).1 = false :=
  verify_v_unrecoverable_rejected hdrBadV rqW 1000
    ⟨1, "exact", "eip155:84532", demoDict "10000" "990" "1300" demoNonce 29⟩
    (demoPayload "10000" "990" "1300" demoNonce 29)
    (by rfl) (by rfl) (by decide)

/-- C9: `verify_payment` is total at its interface — every exception
path of the source is caught and mapped to a returned pair, so the
embedding is a total function — and it returns `(true, none)` or
`(false, some reason)`: whenever `isValid` is `false` the reason is a
string, never `None`. -/
theorem verify_payment_never_raises (header : String) (req : PaymentRequirementsT)
    (now : Int) :
    ((verifyPayment header req now).1 = true → (verifyPayment header req now).2 = none)
    ∧ ((verifyPayment header req now).1 = false →
      ∃ reason, (verifyPayment header req now).2 = some reason) := by
  rcases verifyPayment_shape header req now with h | ⟨s, h⟩
  · rw [h]
    exact ⟨fun _ => rfl, fun hf => absurd hf (by simp)⟩
  · rw [h]
    exact ⟨fun ht => absurd ht (by simp), fun _ => ⟨s, rfl⟩⟩

/-- C9 witness: a malformed header produces `isValid = false` together
with a reason string. -/
theorem verify_payment_never_raises_witness :
    (verifyPayment "%%%%" rqW 0).1 = false ∧
      ∃ reason, (verifyPayment "%%%%" rqW 0).2 = some reason :=
  ⟨by decide, (verify_payment_never_raises "%%%%" rqW 0).2 (by decide)⟩

/-- C10: the amount gate compares the wire strings, not integer values:
under the same premisses as C2, a `value` string that differs textually
from `maxAmountRequired` is rejected with the amount-mismatch reason
even when both strings denote the same integer. -/
theorem verify_amount_string_compare
    (header : String) (req : PaymentRequirementsT) (now : Int)
    (pp : PaymentPayloadT) (p : ExactPaymentPayloadT) (fromA toA : Nat)
    (hparse : parsePaymentHeader header = some pp)
    (hv : pp.x402Version = 1) (hs : pp.scheme = "exact") (hrs : req.scheme = "exact")
    (hn : pp.network = req.network)
    (hdec : validateExactPayload pp.payload = some p)
    (hf : parseAddress p.from_ = some fromA)
    (ht : parseAddress p.to_ = some toA)
    (hp : parseAddress req.payTo = some toA)
    (_hnum : pyIntDec p.value = pyIntDec req.maxAmountRequired)
    (hne : p.value ≠ req.maxAmountRequired) :
    verifyPayment header req now =
      (false, some ("Amount mismatch: expected " ++ req.maxAmountRequired ++
        ", got " ++ p.value)) := by
  rw [verifyPayment_exact hparse hv hs hrs hn, verifyExactScheme_amount hdec hf ht hp,
    if_pos hne]

/-- Helper for C8: a `bytes32` component that fails to encode makes the
whole `TransferWithAuthorization` struct hash fail. -/
theorem hashStructTwa_nonce_none {fromS toS : String} {value va vb : Int}
    {nonce : String} (hnonce : enc712Bytes32 nonce = none) :
    hashStructTwa fromS toS value va vb nonce = none := by
  unfold hashStructTwa
  rw [hnonce]
  cases enc712Addr fromS <;> cases enc712Addr toS <;> cases enc712Uint value <;>
    cases enc712Uint va <;> cases enc712Uint vb <;> simp

/-- Helper for C8: with an unencodable nonce the EIP-712 digest raises. -/
theorem typedDataDigest_nonce_none {name version : String} {chainId : Int}
    {vc fromS toS : String} {value va vb : Int} {nonce : String}
    (hnonce : enc712Bytes32 nonce = none) :
    typedDataDigest name version chainId vc fromS toS value va vb nonce = none := by
  unfold typedDataDigest
  rw [hashStructTwa_nonce_none hnonce]
  cases hashStructDomain name version chainId vc <;> simp

/-- C4: when verification of the payment header fails, the facilitator's
`/settle` endpoint answers HTTP 200 with
`{success: false, error: "Verification failed: <reason>", txHash: null,
networkId: null}` and never invokes the settler — the result is this
constant response for every settler function. -/
theorem settle_verify_failure_response
    (header : String) (req : PaymentRequirementsT) (now : Int) (reason : String)
    (settler : PaymentPayloadT → PaymentRequirementsT →
      Bool × Option String × Option String)
    (hfail : verifyPayment header req now = (false, some reason)) :
    settleEndpoint header req now settler =
      (200, ⟨false, some ("Verification failed: " ++ reason), none, none⟩, false) := by
  unfold settleEndpoint
  rw [hfail]
  rfl

/-- C4 witness: a malformed header is never forwarded to the settler
and yields the verification-failure body with HTTP 200. -/
theorem settle_verify_failure_response_witness :
    settleEndpoint "%%%%" rqW 0 (fun _ _ => (true, none, some "0xabc")) =
      (200, ⟨false,
        some "Verification failed: Verification error: validation error for PaymentPayload",
        none, none⟩, false) :=
  settle_verify_failure_response "%%%%" rqW 0
    "Verification error: validation error for PaymentPayload"
    (fun _ _ => (true, none, some "0xabc")) (by decide)

/-- C5 counterexample: on a non-200 facilitator response the middleware
answers 402 with the body `{"error": "Payment settlement failed",
"details": <facilitator text>}`; contrary to the claim, this body does
not contain the original payment requirements — it has no `accepts`
entry (and none of the requirements fields). -/
theorem settle_non200_requirements_absent :
    (requirePayment "$0.01" "Current weather information" mcfgDemo (some "x") "/weather"
        (.response 500 "boom" none) (.str "ok")).1 = 402
    ∧ (requirePayment "$0.01" "Current weather information" mcfgDemo (some "x") "/weather"
        (.response 500 "boom" none) (.str "ok")).2.1 =
      .obj [("error", .str "Payment settlement failed"), ("details", .str "boom")]
    ∧ jGet (requirePayment "$0.01" "Current weather information" mcfgDemo (some "x")
        "/weather" (.response 500 "boom" none) (.str "ok")).2.1 "accepts" = none :=
  ⟨rfl, rfl, rfl⟩

/-- C5 (amended): for every non-200 facilitator response the middleware
answers 402 whose body carries an error string and the facilitator's
response text as `details`, without the original requirements (those are
attached only on the HTTP-200 `success = false` path). -/
theorem settle_non200_error_body
    (amountUsd description : String) (cfg : MiddlewareConfig) (hdr path : String)
    (status : Nat) (text : String) (json? : Option JVal) (handlerBody : JVal)
    (reqs : PaymentRequirementsT)
    (hreqs : createPaymentRequirements cfg amountUsd path description
      "application/json" = some reqs)
    (hstatus : status ≠ 200) :
    requirePayment amountUsd description cfg (some hdr) path
        (.response status text json?) handlerBody =
      (402, .obj [("error", .str "Payment settlement failed"),
        ("details", .str text)], none) := by
  unfold requirePayment
  simp only [hreqs]
  rw [if_pos hstatus]

/-- C5 amended witness: a 503 from the facilitator yields the
error/details 402 body. -/
theorem settle_non200_error_body_witness :
    requirePayment "$0.01" "d" mcfgDemo (some "x") "/weather"
        (.response 503 "upstream down" none) (.str "ok") =
      (402, .obj [("error", .str "Payment settlement failed"),
        ("details", .str "upstream down")], none) :=
  settle_non200_error_body "$0.01" "d" mcfgDemo "x" "/weather" 503 "upstream down"
    none (.str "ok")
    { scheme := "exact", network := "eip155:84532", maxAmountRequired := "10000",
      resource := "/weather", description := "d", mimeType := "application/json",
      outputSchema := none, payTo := "0x2222222222222222222222222222222222222222",
      maxTimeoutSeconds := 60, asset := "0x3333333333333333333333333333333333333333",
      extra := some [("name", "USDC"), ("version", "2")] }
    (by rfl) (by decide)

/-- C6: the middleware converts `"$2.01"` at the default 6 token
decimals to `maxAmountRequired = "2009999"`, because
`int(float("2.01") * 10 ** 6)` truncates the binary64 product
`2009999.9999999998`; the specified exact conversion
`floor(amountUSD * 10^6)` is `2010000`.  The minted amount therefore
underpays the advertised price by one atomic unit. -/
theorem createPaymentRequirements_float_bug :
    (createPaymentRequirements mcfgDemo "$2.01" "/weather" "Current weather information"
        "application/json").map (fun r => r.maxAmountRequired) = some "2009999"
    ∧ specAmountAtomic "$2.01" 6 = some 2010000
    ∧ intDecStr 2010000 = "2010000" :=
  ⟨by decide, by decide, by decide⟩

/-- C8 counterexample: a payload whose `nonce` is `"0xdead"` — two
bytes, not 32 — validates as a perfectly well-formed
`ExactPaymentPayload` (the model declares `nonce` as a plain string
with no length constraint), so the claimed structural rejection does
not happen. -/
theorem short_nonce_decodes_counterexample :
    validateExactPayload (demoDict "10000" "990" "1300" "0xdead" 27) =
      some (demoPayload "10000" "990" "1300" "0xdead" 27)
    ∧ (hexCharsToBytes (stripHexMark ("0xdead".data))).map List.length = some 2 :=
  ⟨rfl, rfl⟩

/-- C8 (amended): a nonce that does not encode exactly 32 bytes is not
rejected at all — neither structurally (the payload decodes; see the
counterexample) nor at the signature stage: `encode_typed_data`
right-pads the short value to 32 bytes instead of raising, the signer
and the verifier digest the padded nonce identically, and a payment
signed over that digest passes the verifier's signature check. -/
theorem short_nonce_padded_accepted
    (accountAddress : String) (req : PaymentRequirementsT) (dur now : Int)
    (nonce : String) (extra : List (String × String)) (name version : String)
    (chainId value : Int) (fromA toA vcA : Nat) (nb0 : List Nat)
    (hex : req.extra = some extra)
    (hname : sLookup extra "name" = some name)
    (hver : sLookup extra "version" = some version)
    (hnamene : name ≠ "") (hverne : version ≠ "")
    (hcid : parseChainId req.network = some chainId)
    (hcid0 : 0 ≤ chainId) (hcid1 : chainId < (2 : Int) ^ 256)
    (hacct : parseAddress accountAddress = some fromA)
    (hpay : parseAddress req.payTo = some toA)
    (hasset : parseAddress req.asset = some vcA)
    (hval : pyIntDec req.maxAmountRequired = some value)
    (hval0 : 0 ≤ value) (hval1 : value < (2 : Int) ^ 256)
    (hva0 : 0 ≤ now - 10) (hva1 : now - 10 < (2 : Int) ^ 256)
    (hvb0 : 0 ≤ now + dur) (hvb1 : now + dur < (2 : Int) ^ 256)
    (heven : (stripHexMark nonce.data).length % 2 = 0)
    (hdecode : hexCharsToBytes (stripHexMark nonce.data) = some nb0)
    (hshort : nb0.length < 32) :
    enc712Bytes32 nonce = some (nb0 ++ List.replicate (32 - nb0.length) 0) ∧
      ∃ p, createExactPayment accountAddress req dur now nonce = some p ∧
        verifyEip3009Sig p req fromA = (true, none) := by
  have hfromA : fromA < 2 ^ 160 := parseAddress_lt hacct
  have htoA : toA < 2 ^ 160 := parseAddress_lt hpay
  have hvcA : vcA < 2 ^ 160 := parseAddress_lt hasset
  have hextrane : extra.isEmpty = false := by
    cases extra with
    | nil => exact absurd hname (by simp [sLookup])
    | cons a l => rfl
  have hnonce : enc712Bytes32 nonce =
      some (nb0 ++ List.replicate (32 - nb0.length) 0) := by
    unfold enc712Bytes32
    rw [if_neg (by omega), hdecode]
    show (if nb0.length ≤ 32 then
        some (nb0 ++ List.replicate (32 - nb0.length) 0) else none) = _
    rw [if_pos (Nat.le_of_lt hshort)]
  have hDc0 : typedDataDigest name version chainId (checksumRender vcA)
      (checksumRender fromA) (checksumRender toA) value (now - 10) (now + dur) nonce =
        some (keccak256 (0x19 :: 0x01 ::
          (keccak256 (keccak256 (strBytes domainTypeString) ++
              keccak256 (strBytes name) ++ keccak256 (strBytes version) ++
              beBytes 32 chainId.toNat ++ beBytes 32 vcA) ++
            keccak256 (keccak256 (strBytes twaTypeString) ++
              beBytes 32 fromA ++ beBytes 32 toA ++ beBytes 32 value.toNat ++
              beBytes 32 (now - 10).toNat ++ beBytes 32 (now + dur).toNat ++
              (nb0 ++ List.replicate (32 - nb0.length) 0))))) := by
    unfold typedDataDigest hashStructDomain hashStructTwa enc712Uint enc712Addr
    rw [parseAddress_checksumRender vcA hvcA, parseAddress_checksumRender fromA hfromA,
      parseAddress_checksumRender toA htoA,
      if_pos (show 0 ≤ chainId ∧ chainId < (2 : Int) ^ 256 from ⟨hcid0, hcid1⟩),
      if_pos (show 0 ≤ value ∧ value < (2 : Int) ^ 256 from ⟨hval0, hval1⟩),
      if_pos (show 0 ≤ now - 10 ∧ now - 10 < (2 : Int) ^ 256 from ⟨hva0, hva1⟩),
      if_pos (show 0 ≤ now + dur ∧ now + dur < (2 : Int) ^ 256 from ⟨hvb0, hvb1⟩),
      hnonce]
    rfl
  obtain ⟨K, hDc, hKlt⟩ :
      ∃ K, typedDataDigest name version chainId (checksumRender vcA)
        (checksumRender fromA) (checksumRender toA) value (now - 10) (now + dur) nonce =
          some K ∧ bytesToNat K < 2 ^ 256 :=
    ⟨_, hDc0, bytesToNat_keccak_lt _⟩
  have hDv : typedDataDigest name version chainId req.asset (checksumRender fromA)
      (checksumRender toA) value (now - 10) (now + dur) nonce = some K := by
    rw [← typedDataDigest_vc_congr (enc712Addr_checksum hasset)]
    exact hDc
  have hcreate : createExactPayment accountAddress req dur now nonce =
      some ⟨checksumRender fromA, checksumRender toA, req.maxAmountRequired,
        intDecStr (now - 10), intDecStr (now + dur), nonce, 27,
        "0x" ++ natHexFixed 32 fromA, "0x" ++ natHexFixed 32 (bytesToNat K)⟩ := by
    unfold createExactPayment
    rw [hex]
    simp only [hextrane, Bool.false_eq_true, if_false, ite_false, hname, hver]
    rw [if_neg (by simp [hnamene, hverne])]
    simp only [hcid, hacct, hpay, hasset, hval, hDc]
    rfl
  have hr : pyIntHex ("0x" ++ natHexFixed 32 fromA) = some (fromA : Int) :=
    pyIntHex_0x 32 fromA (by norm_num)
      (lt_of_lt_of_le hfromA (by norm_num))
  have hsv : pyIntHex ("0x" ++ natHexFixed 32 (bytesToNat K)) =
      some ((bytesToNat K : Nat) : Int) :=
    pyIntHex_0x 32 _ (by norm_num) (by simpa using hKlt)
  refine ⟨hnonce, _, hcreate, ?_⟩
  unfold verifyEip3009Sig
  rw [hex]
  simp only [hextrane, Bool.false_eq_true, if_false, ite_false, hname, hver]
  rw [if_neg (by simp [hnamene, hverne])]
  simp only [hcid, hval, pyIntDec_intDecStr, hDv, hr, hsv]
  have hrange : ¬((fromA : Int) < 0 ∨ (2 : Int) ^ 256 ≤ (fromA : Int) ∨
      ((bytesToNat K : Nat) : Int) < 0 ∨
      (2 : Int) ^ 256 ≤ ((bytesToNat K : Nat) : Int)) := by
    push_neg
    refine ⟨Int.natCast_nonneg _, ?_, Int.natCast_nonneg _, ?_⟩
    · exact_mod_cast lt_of_lt_of_le hfromA (by norm_num)
    · exact_mod_cast hKlt
  rw [if_neg hrange, if_neg (by decide)]
  unfold idealRecover
  rw [if_pos (show (27 : Int) = 0 ∨ (27 : Int) = 1 ∨ (27 : Int) = 27 ∨ (27 : Int) = 28 ∨
    (35 : Int) ≤ 27 by decide)]
  simp only [Int.toNat_natCast]
  rw [if_pos trivial, if_pos hfromA]
  simp

/-- C8 amended witness: the two-byte nonce `"0xdead"` is right-padded
with 30 zero bytes and the payment the client signs over it passes the
verifier's signature check. -/
theorem short_nonce_padded_accepted_witness :
    enc712Bytes32 "0xdead" = some ([0xde, 0xad] ++ List.replicate 30 0) ∧
      ∃ p, createExactPayment "0x1111111111111111111111111111111111111111" rqW
          300 1000 "0xdead" = some p ∧
        verifyEip3009Sig p rqW 0x1111111111111111111111111111111111111111 =
          (true, none) :=
  short_nonce_padded_accepted
    "0x1111111111111111111111111111111111111111" rqW 300 1000 "0xdead"
    [("name", "USDC"), ("version", "2")] "USDC" "2" 84532 10000
    0x1111111111111111111111111111111111111111
    0x2222222222222222222222222222222222222222
    0x3333333333333333333333333333333333333333
    [0xde, 0xad]
    (by rfl) (by rfl) (by rfl) (by decide) (by decide) (by rfl) (by decide) (by decide)
    (by rfl) (by rfl) (by rfl) (by rfl) (by decide) (by decide) (by decide) (by decide)
    (by decide) (by decide) (by rfl) (by rfl) (by decide)

/-- C10 witness: `value = "010000"` denotes the same integer as the
required `"10000"` yet is rejected with the amount-mismatch reason. -/
theorem verify_amount_string_compare_witness :
    verifyPayment hdrLeadingZero rqW 1000 =
      (false, some "Amount mismatch: expected 10000, got 010000") := by
  have h := verify_amount_string_compare hdrLeadingZero rqW 1000
    ⟨1, "exact", "eip155:84532", demoDict "010000" "990" "1300" demoNonce 27⟩
    (demoPayload "010000" "990" "1300" demoNonce 27)
    0x1111111111111111111111111111111111111111
    0x2222222222222222222222222222222222222222
    (by rfl) (by rfl) (by rfl) (by rfl) (by rfl) (by rfl)
    (by rfl) (by rfl) (by rfl) (by rfl) (by decide)
  exact h

end X402
